import Mathlib

/-!
Verification of the vote normalization, matching and tally-reconciliation
pipeline of the radio-zimbabwe chatbot (apps/voting: models.py, matching.py,
text_cleaning.py, cleaning.py, services.py).

The Python source is shallowly embedded: pure functions become Lean
functions on String / List Char, Python floats become exact rationals (ℚ),
database tables become lists of records, and the external LLM call becomes
an explicit outcome parameter.  Strings are modelled at ASCII granularity
(the character classes used by the source  - str.lower, str.strip, \s, \w -
are implemented with their ASCII semantics).
-/

namespace RZ

/-- ASCII whitespace as recognised by Python str.strip() and the regex
class \s (space, tab, newline, carriage return, vertical tab, form feed). -/
def pyWs (c : Char) : Bool :=
  c == ' ' || c == '\t' || c == '\n' || c == '\r' || c == '\x0b' || c == '\x0c'

/-- Dropping a prefix by a predicate never lengthens a list (used for
termination of the whitespace-run scanners). -/
theorem length_dropWhile_le_self {α : Type} (p : α → Bool) :
    ∀ l : List α, (l.dropWhile p).length ≤ l.length := by
  intro l
  induction l with
  | nil => simp
  | cons c rest ih =>
    by_cases h : p c
    · simp only [List.dropWhile_cons, h, if_true, List.length_cons]
      omega
    · simp [List.dropWhile_cons, h]

/-- Python str.strip(): drop leading and trailing whitespace. -/
def pyStrip (l : List Char) : List Char :=
  ((l.dropWhile pyWs).reverse.dropWhile pyWs).reverse

/-- One pass of re.sub(r'\s+', ' ', text): every maximal whitespace run
becomes a single space.  The Boolean records whether the scanner is inside
a whitespace run whose space has already been emitted. -/
def collapseWsAux : Bool → List Char → List Char
  | _, [] => []
  | inRun, c :: rest =>
    if pyWs c then
      if inRun then collapseWsAux true rest
      else ' ' :: collapseWsAux true rest
    else c :: collapseWsAux false rest

/-- re.sub(r'\s+', ' ', text). -/
def collapseWs (l : List Char) : List Char :=
  collapseWsAux false l

/-- models.normalize_text: strip, collapse internal whitespace, lowercase. -/
def normalize_text (s : String) : String :=
  ⟨(collapseWs (pyStrip s.data)).map Char.toLower⟩

/-- models.create_match_key: normalized "artist::song" grouping key. -/
def create_match_key (artist song : String) : String :=
  normalize_text artist ++ "::" ++ normalize_text song

/-!
difflib.SequenceMatcher (Python standard library), as used by
matching.similarity_ratio with junk = None.  find_longest_match returns,
among all maximal matching blocks of the two slices, the one starting
earliest in a and then earliest in b; ratio is 2*M/T where M is the total
size of the matching blocks found by recursive decomposition and T the sum
of the lengths (1.0 when both strings are empty).  The autojunk
"popular element" heuristic, which only alters results when the second
string is at least 200 characters long, is not modelled.
-/

/-- Length of the common prefix of two character lists. -/
def commonPrefixRun : List Char → List Char → Nat
  | a :: as, b :: bs => if a = b then commonPrefixRun as bs + 1 else 0
  | _, _ => 0

/-- Size of the matching block of a and b starting at positions i and j,
clipped to the slices ending at ahi and bhi. -/
def matchSizeAt (a b : List Char) (ahi bhi i j : Nat) : Nat :=
  min (commonPrefixRun (a.drop i) (b.drop j)) (min (ahi - i) (bhi - j))

/-- SequenceMatcher.find_longest_match on the slices a[alo:ahi], b[blo:bhi]
(no junk): the maximal matching block, ties resolved to the lowest start in
a and then in b; (alo, blo, 0) when there is none. -/
def findLongestMatch (a b : List Char) (alo ahi blo bhi : Nat) :
    Nat × Nat × Nat :=
  ((List.range' alo (ahi - alo)).flatMap
      (fun i => (List.range' blo (bhi - blo)).map (fun j => (i, j)))).foldl
    (fun best ij =>
      let k := matchSizeAt a b ahi bhi ij.1 ij.2
      if best.2.2 < k then (ij.1, ij.2, k) else best)
    (alo, blo, 0)

/-- Total size of the matching blocks of SequenceMatcher.get_matching_blocks
restricted to the given slices, by recursive decomposition around the
longest match.  The fuel argument only bounds the recursion depth; a call
with fuel greater than ahi - alo is never cut off, because every recursive
step strictly shrinks the first slice. -/
def matchingTotalF (a b : List Char) :
    Nat → Nat → Nat → Nat → Nat → Nat
  | 0, _, _, _, _ => 0
  | fuel + 1, alo, ahi, blo, bhi =>
    if alo < ahi ∧ blo < bhi then
      let m := findLongestMatch a b alo ahi blo bhi
      if 0 < m.2.2 then
        m.2.2 + matchingTotalF a b fuel alo m.1 blo m.2.1
          + matchingTotalF a b fuel (m.1 + m.2.2) ahi (m.2.1 + m.2.2) bhi
      else 0
    else 0

/-- SequenceMatcher(None, a, b).ratio(): 2*M/T, and 1.0 when T = 0. -/
def sequenceMatcherRatio (a b : List Char) : ℚ :=
  if a.length + b.length = 0 then 1
  else (2 * (matchingTotalF a b (a.length + b.length + 1)
      0 a.length 0 b.length) : ℚ) / (a.length + b.length)

/-- matching.similarity_ratio: SequenceMatcher ratio of the lowercased
strings. -/
def similarity_ratio (a b : String) : ℚ :=
  sequenceMatcherRatio (a.data.map Char.toLower) (b.data.map Char.toLower)

/-- ASCII word character, the regex class \w: letters, digits, underscore. -/
def isWordChar (c : Char) : Bool :=
  c.isAlphanum || c == '_'

/-- re.findall(r'\w+', text): the maximal runs of word characters.  The
accumulator holds the reversed current run. -/
def wordRunsAux : List Char → List Char → List (List Char)
  | acc, [] => if acc.isEmpty then [] else [acc.reverse]
  | acc, c :: rest =>
    if isWordChar c then wordRunsAux (c :: acc) rest
    else if acc.isEmpty then wordRunsAux [] rest
    else acc.reverse :: wordRunsAux [] rest

/-- re.findall(r'\w+', text). -/
def wordRuns (l : List Char) : List (List Char) :=
  wordRunsAux [] l

/-- matching.tokenize: the set of lowercase word tokens, modelled as a
duplicate-free list. -/
def tokenize (s : String) : List String :=
  ((wordRuns (s.data.map Char.toLower)).map (fun l => (⟨l⟩ : String))).dedup

/-- matching.token_overlap_ratio: Jaccard similarity of the token sets,
with the source's early return of 0.0 when either token set is empty. -/
def token_overlap_ratio (a b : String) : ℚ :=
  let tokens_a := tokenize a
  let tokens_b := tokenize b
  if tokens_a.isEmpty || tokens_b.isEmpty then 0
  else
    let inter := tokens_a.filter (fun t => t ∈ tokens_b)
    let union := (tokens_a ++ tokens_b).dedup
    if union.isEmpty then 0 else (inter.length : ℚ) / union.length

/-- matching.combined_similarity: 0.7 * character similarity +
0.3 * token overlap. -/
def combined_similarity (a b : String) : ℚ :=
  similarity_ratio a b * (7 / 10) + token_overlap_ratio a b * (3 / 10)

/-! Thresholds from matching.py. -/

def ARTIST_SIMILARITY_THRESHOLD : ℚ := 88 / 100

def SONG_SIMILARITY_THRESHOLD : ℚ := 82 / 100

def AUTO_MERGE_THRESHOLD : ℚ := 92 / 100

def CONFIDENCE_GAP : ℚ := 10 / 100

def MIN_TOKEN_OVERLAP : ℚ := 6 / 10

/-- A row of the CleanedSong table (models.CleanedSong): a canonical song
with artist, title, unique canonical display name and a lifecycle status in
pending / verified / rejected.  The station column, constant in a
single-station deployment, and the optional Spotify enrichment columns,
which the matching pipeline never reads, are omitted. -/
structure CleanedSong where
  id : Nat
  artist : String
  title : String
  canonical_name : String
  status : String
deriving DecidableEq

/-- The per-candidate combined score computed inside the loop of
matching.match_against_known_songs, including both token-overlap boosts and
both near-exact-match floors. -/
def songScore (artist_norm song_norm : String) (song : CleanedSong) : ℚ :=
  let artist_db := normalize_text song.artist
  let title_db := normalize_text song.title
  let artist_score := combined_similarity artist_norm artist_db
  let title_score := combined_similarity song_norm title_db
  let artist_token_overlap := token_overlap_ratio artist_norm artist_db
  let title_token_overlap := token_overlap_ratio song_norm title_db
  let base := artist_score * (4 / 10) + title_score * (6 / 10)
  let boosted :=
    if MIN_TOKEN_OVERLAP ≤ artist_token_overlap ∧ MIN_TOKEN_OVERLAP ≤ title_token_overlap
    then max base ((artist_score + title_score) / 2) else base
  let boosted2 :=
    if (95 / 100 : ℚ) ≤ artist_score ∧ (85 / 100 : ℚ) ≤ title_score
    then max boosted (95 / 100) else boosted
  if (95 / 100 : ℚ) ≤ title_score ∧ (75 / 100 : ℚ) ≤ artist_score
  then max boosted2 (90 / 100) else boosted2

/-- The scores list of match_against_known_songs: one combined score per
verified CleanedSong, in table order. -/
def scoredSongs (songs : List CleanedSong) (artist_input song_input : String) :
    List (CleanedSong × ℚ) :=
  let artist_norm := normalize_text artist_input
  let song_norm := normalize_text song_input
  (songs.filter (fun s => s.status == "verified")).map
    (fun s => (s, songScore artist_norm song_norm s))

/-- Stable insertion of a scored song into a list sorted by descending
score: placed before the first entry whose score is not larger. -/
def insertByScoreDesc (p : CleanedSong × ℚ) :
    List (CleanedSong × ℚ) → List (CleanedSong × ℚ)
  | [] => [p]
  | q :: rest => if q.2 ≤ p.2 then p :: q :: rest else q :: insertByScoreDesc p rest

/-- Stable descending sort by score: the behaviour of the source's
scores.sort(key=lambda x: x[1], reverse=True) (Python list.sort is stable). -/
def sortByScoreDesc : List (CleanedSong × ℚ) → List (CleanedSong × ℚ)
  | [] => []
  | p :: rest => insertByScoreDesc p (sortByScoreDesc rest)

/-- The scored candidates of match_against_known_songs in descending score
order. -/
def sortedScores (songs : List CleanedSong) (artist_input song_input : String) :
    List (CleanedSong × ℚ) :=
  sortByScoreDesc (scoredSongs songs artist_input song_input)

/-- The song in first position after the sort, scores[0][0] in the source
(a dummy song when the list is empty, which the caller's emptiness guard
rules out). -/
def fuzzyBestSong (songs : List CleanedSong) (artist_input song_input : String) :
    CleanedSong :=
  ((sortedScores songs artist_input song_input).headD (⟨0, "", "", "", ""⟩, 0)).1

/-- best_score of match_against_known_songs: scores[0][1] (0 when there are
no verified candidates). -/
def bestFuzzyScore (songs : List CleanedSong) (artist_input song_input : String) : ℚ :=
  ((sortedScores songs artist_input song_input).map Prod.snd).headD 0

/-- second_best_score of match_against_known_songs: scores[1][1] when there
is more than one candidate, else 0.0 as in the source. -/
def secondFuzzyScore (songs : List CleanedSong) (artist_input song_input : String) : ℚ :=
  (((sortedScores songs artist_input song_input).map Prod.snd).drop 1).headD 0

/-- matching.match_against_known_songs: score the cleaned input against
every verified CleanedSong and auto-link only when the best score reaches
the threshold and beats the runner-up by CONFIDENCE_GAP; returns
(artist, title, match_key, display_name) of the matched song, or none. -/
def match_against_known_songs (songs : List CleanedSong)
    (artist_input song_input : String) (threshold : ℚ := AUTO_MERGE_THRESHOLD) :
    Option (String × String × String × String) :=
  if (scoredSongs songs artist_input song_input).isEmpty then none
  else if threshold ≤ bestFuzzyScore songs artist_input song_input ∧
      CONFIDENCE_GAP ≤ bestFuzzyScore songs artist_input song_input
        - secondFuzzyScore songs artist_input song_input then
    some ((fuzzyBestSong songs artist_input song_input).artist,
      (fuzzyBestSong songs artist_input song_input).title,
      create_match_key (fuzzyBestSong songs artist_input song_input).artist
        (fuzzyBestSong songs artist_input song_input).title,
      (fuzzyBestSong songs artist_input song_input).canonical_name)
  else none

/-! ### Python string helpers shared by cleaning.py and services.py -/

/-- Python str.lower (ASCII). -/
def lowerStr (s : String) : String :=
  ⟨s.data.map Char.toLower⟩

/-- Python str.strip() on String. -/
def pyStripStr (s : String) : String :=
  ⟨pyStrip s.data⟩

/-- Python str.title (ASCII): a letter is uppercased when the preceding
character is not a letter, lowercased otherwise; other characters are kept
and reset the word boundary.  The Boolean records whether the previous
character was a letter. -/
def pyTitleAux : Bool → List Char → List Char
  | _, [] => []
  | prevAlpha, c :: rest =>
    if c.isAlpha then
      (if prevAlpha then c.toLower else c.toUpper) :: pyTitleAux true rest
    else c :: pyTitleAux false rest

/-- Python str.title (ASCII). -/
def pyTitle (s : String) : String :=
  ⟨pyTitleAux false s.data⟩

/-- Index of the first occurrence of sep in l, if any. -/
def substrIndex (sep : List Char) : List Char → Option Nat
  | [] => if sep.isEmpty then some 0 else none
  | c :: rest =>
    if sep.isPrefixOf (c :: rest) then some 0
    else (substrIndex sep rest).map (· + 1)

/-- Python "sep in s" for strings. -/
def containsSubstr (sep s : String) : Bool :=
  (substrIndex sep.data s.data).isSome

/-- Python s.split(sep, 1): the part before the first occurrence of sep,
and the part after it when sep occurs. -/
def splitOnce (sep s : String) : String × Option String :=
  match substrIndex sep.data s.data with
  | none => (s, none)
  | some i => (⟨s.data.take i⟩, some ⟨s.data.drop (i + sep.length)⟩)

/-!
### cleaning.py: the LLM matching tier

The external OpenAI call of cleaning.call_openai_api is modelled by an
explicit outcome parameter: either the call raised, or it returned text
whose json.loads outcome is given.  Python dict field access via .get is
modelled with Option fields; the truthiness tests the source applies to
the fields are modelled on those options.
-/

/-- Outcome of json.loads on the (markdown-stripped) response text of the
semantic matcher. -/
inductive LLMJson where
  /-- json.loads raises JSONDecodeError: the text is not valid JSON. -/
  | invalid (msg : String)
  /-- json.loads succeeds but the value is not a dict, so the source's
  validation raises ValueError("Response is not a dict"). -/
  | nonDict
  /-- A dict, with the fields the source reads through .get: absent keys
  are none. -/
  | dict (matched : Bool) (matched_song_id : Option Int)
      (matched_song_name : Option String) (confidence : Option String)
      (reasoning : Option String)
deriving DecidableEq

/-- Outcome of the call_openai_api request itself. -/
inductive LLMCall where
  /-- The HTTP call returned text parsing as given. -/
  | success (parse : LLMJson)
  /-- The call (or any other step of the try block) raised an exception
  with the given message. -/
  | failure (msg : String)
deriving DecidableEq

/-- One entry of the verified-songs list built by
get_verified_songs_for_prompt. -/
structure VerifiedSongInfo where
  id : Nat
  artist : String
  title : String
  canonical_name : String
deriving DecidableEq

/-- The dict returned by cleaning.match_vote_with_llm. -/
structure LLMMatchResult where
  matched : Bool
  matched_song_id : Option Int
  matched_song_name : Option String
  confidence : String
  reasoning : String
deriving DecidableEq

/-- cleaning.match_vote_with_llm: delegate to the LLM and normalise its
response; every parse failure or exception degrades to a no-match result
with confidence "none" (the function itself never propagates an
exception - its try block catches JSONDecodeError, ValueError and every
other Exception). -/
def match_vote_with_llm (artist title : String)
    (verified_songs : List VerifiedSongInfo) (call : LLMCall) : LLMMatchResult :=
  if verified_songs.isEmpty then
    ⟨false, none, none, "none", "No verified songs in database to match against"⟩
  else
    match call with
    | .failure msg => ⟨false, none, none, "none", "LLM error: " ++ msg⟩
    | .success (.invalid msg) =>
      ⟨false, none, none, "none", "LLM response parsing error: " ++ msg⟩
    | .success .nonDict =>
      ⟨false, none, none, "none", "LLM response parsing error: Response is not a dict"⟩
    | .success (.dict matched idOpt nameOpt confOpt reasonOpt) =>
      ⟨matched && (confOpt == some "high"), idOpt, nameOpt,
        confOpt.getD "none", reasonOpt.getD "No reasoning provided"⟩

/-- cleaning.is_valid_vote_format: a display name is a valid vote when it
contains " - " and both stripped sides have at least two characters. -/
def is_valid_vote_format (display_name : String) : Bool × String × String :=
  if !containsSubstr " - " display_name then (false, "", "")
  else
    match splitOnce " - " display_name with
    | (_, none) => (false, "", "")
    | (front, some back) =>
      let artist := pyStripStr front
      let title := pyStripStr back
      if artist.length < 2 || title.length < 2 then (false, "", "")
      else (true, artist, title)

/-!
### The cleaning-service data model (models.py / cleaning.py)

Tables become lists of records in table order; dates are natural numbers.
The station column, constant in a single-station deployment, and the
timestamp columns, which the pipeline never branches on, are omitted.
-/

/-- A row of MatchKeyMapping: the resolved edge from a grouping key to a
CleanedSong (referenced by id). -/
structure MatchKeyMapping where
  match_key : String
  cleaned_song : Nat
  sample_display_name : String
  vote_count : Int
  is_auto_mapped : Bool
deriving DecidableEq

/-- A row of RawSongTally: the daily vote count of one grouping key. -/
structure RawSongTally where
  date : Nat
  match_key : String
  display_name : String
  count : Int
deriving DecidableEq

/-- A row of CleanedSongTally: the daily vote count of one canonical song
(referenced by id). -/
structure CleanedSongTally where
  date : Nat
  cleaned_song : Nat
  count : Int
deriving DecidableEq

/-- A row of LLMDecisionLog, the audit table written by
CleaningService._log_decision. -/
structure LLMDecisionLog where
  input_text : String
  input_type : String
  action : String
  confidence : String
  reasoning : String
  matched_song : Option Nat
  matched_song_name : String
  was_applied : Bool
deriving DecidableEq

/-- The database state read and written by the cleaning service. -/
structure CleanDB where
  songs : List CleanedSong
  mappings : List MatchKeyMapping
  rawTallies : List RawSongTally
  cleanedTallies : List CleanedSongTally
  decisions : List LLMDecisionLog
  nextSongId : Nat
deriving DecidableEq

/-- CleanedSong.objects.get(id=i): the row with the given primary key. -/
def songById (songs : List CleanedSong) (i : Nat) : Option CleanedSong :=
  songs.find? (fun s => s.id == i)

/-- The mapping_dict of _update_cleaned_tallies: built from the mappings
whose target CleanedSong has status verified; a later duplicate key would
overwrite an earlier one, as in a Python dict comprehension, so lookup
prefers the latest row. -/
def mappingLookup (songs : List CleanedSong) :
    List MatchKeyMapping → String → Option CleanedSong
  | [], _ => none
  | m :: rest, key =>
    match mappingLookup songs rest key with
    | some s => some s
    | none =>
      if m.match_key == key then
        match songById songs m.cleaned_song with
        | some s => if s.status == "verified" then some s else none
        | none => none
      else none

/-- defaultdict(int) bump of song_counts[sid] by c, keeping first-insertion
order (keys are unique by construction, so bumping the first matching entry
is bumping the entry). -/
def addCount : List (Nat × Int) → Nat → Int → List (Nat × Int)
  | [], sid, c => [(sid, c)]
  | p :: rest, sid, c =>
    if p.1 == sid then (p.1, p.2 + c) :: rest else p :: addCount rest sid c

/-- The song_counts aggregation of _update_cleaned_tallies: raw-tally
counts of the date, summed per verified target song. -/
def songCounts (db : CleanDB) (date : Nat) : List (Nat × Int) :=
  (db.rawTallies.filter (fun t => t.date == date)).foldl
    (fun acc t =>
      match mappingLookup db.songs db.mappings t.match_key with
      | some s => addCount acc s.id t.count
      | none => acc) []

/-- CleanedSongTally.objects.update_or_create(date, song, count=c): set the
count of the existing row, or append a new row. -/
def upsertTallySet : List CleanedSongTally → Nat → Nat → Int → List CleanedSongTally
  | [], d, sid, c => [⟨d, sid, c⟩]
  | r :: rest, d, sid, c =>
    if r.date == d && r.cleaned_song == sid then { r with count := c } :: rest
    else r :: upsertTallySet rest d sid c

/-- CleaningService._update_cleaned_tallies: recompute the CleanedSongTally
rows of the date from the raw tallies and the mappings to verified songs
(rows of songs that no longer receive votes are left in place, the source
never deletes them). -/
def update_cleaned_tallies (db : CleanDB) (date : Nat) : CleanDB :=
  { db with
    cleanedTallies := (songCounts db date).foldl
      (fun ct p => upsertTallySet ct date p.1 p.2) db.cleanedTallies }

/-- The get_or_create-then-add step of merge_songs on one source tally row:
add c to the count of the (d, sid) row, creating it at count c when
absent. -/
def upsertTallyAdd : List CleanedSongTally → Nat → Nat → Int → List CleanedSongTally
  | [], d, sid, c => [⟨d, sid, c⟩]
  | r :: rest, d, sid, c =>
    if r.date == d && r.cleaned_song == sid then { r with count := r.count + c } :: rest
    else r :: upsertTallyAdd rest d sid c

/-- CleaningService.merge_songs: move every mapping from source to target,
fold the source's tally rows into the target's date by date, then delete
the source song (the trailing filters are Django's on-delete cascade; they
are no-ops because no row references the source any more).  Returns the
source's success flag: False when either song id does not exist. -/
def merge_songs (db : CleanDB) (source_id target_id : Nat) : CleanDB × Bool :=
  match songById db.songs source_id, songById db.songs target_id with
  | some _, some _ =>
    let mappings2 := db.mappings.map (fun m =>
      if m.cleaned_song == source_id then { m with cleaned_song := target_id } else m)
    let srcTallies := db.cleanedTallies.filter (fun r => r.cleaned_song == source_id)
    let ct2 := srcTallies.foldl (fun ct t =>
      (upsertTallyAdd ct t.date target_id t.count).eraseP
        (fun r => r.date == t.date && r.cleaned_song == source_id)) db.cleanedTallies
    let songs2 := db.songs.filter (fun s => !(s.id == source_id))
    ({ db with
        songs := songs2,
        mappings := mappings2.filter (fun m => !(m.cleaned_song == source_id)),
        cleanedTallies := ct2.filter (fun r => !(r.cleaned_song == source_id)) }, true)
  | _, _ => (db, false)

/-- Sum of the counts of the (date, sid) rows of a CleanedSongTally list
(the count of the unique row under the table's uniqueness constraint, 0
when the row is absent). -/
def tallySum (ct : List CleanedSongTally) (date sid : Nat) : Int :=
  ((ct.filter (fun r => r.date == date && r.cleaned_song == sid)).map
    (fun r => r.count)).sum

/-- The CleanedSongTally count of one song on one date. -/
def cleanedCount (db : CleanDB) (date sid : Nat) : Int :=
  tallySum db.cleanedTallies date sid

/-- Association-list lookup in the song_counts accumulator. -/
def assocGet (l : List (Nat × Int)) (sid : Nat) : Option Int :=
  (l.find? (fun p => p.1 == sid)).map Prod.snd

/-- The first CleanedSongTally row of (d, sid) exists and carries count c. -/
def FirstRowIs (ct : List CleanedSongTally) (d sid : Nat) (c : Int) : Prop :=
  match ct.find? (fun r => r.date == d && r.cleaned_song == sid) with
  | some r => r.count = c
  | none => False

/-- The canonical count derivable from the raw tallies: the sum of the
date's raw counts over the keys currently mapped to the verified song. -/
def derivedCount (db : CleanDB) (date sid : Nat) : Int :=
  ((db.rawTallies.filter (fun t => t.date == date)).map (fun t =>
    match mappingLookup db.songs db.mappings t.match_key with
    | some s => if s.id = sid then t.count else 0
    | none => 0)).sum

/-- The uniqueness constraint of CleanedSongTally: one row per
(date, cleaned_song). -/
def TalliesWF (ct : List CleanedSongTally) : Prop :=
  List.Pairwise (fun r r' => ¬(r.date = r'.date ∧ r.cleaned_song = r'.cleaned_song)) ct

instance (ct : List CleanedSongTally) : Decidable (TalliesWF ct) := by
  unfold TalliesWF
  infer_instance

/-!
### CleaningService._process_single_tally with its observable write trace

Every database write of one processing step is also recorded as an event,
in execution order, so that the ordering of DecisionLog writes relative to
the MatchKeyMapping / CleanedSong mutations is a provable property.
-/

/-- One observable write of _process_single_tally. -/
inductive CleanEvent where
  /-- CleanedSong.objects.create of a new pending song with this id. -/
  | createdSong (id : Nat)
  /-- MatchKeyMapping.objects.update_or_create for this grouping key. -/
  | wroteMapping (key : String)
  /-- LLMDecisionLog.objects.create with this action. -/
  | loggedDecision (action : String)
deriving DecidableEq

/-- CleaningService._create_pending_song: parse artist/title (from the
display name when not supplied), reuse a case-insensitively equal existing
canonical name, else create a new pending CleanedSong. -/
def create_pending_song (db : CleanDB) (tally : RawSongTally)
    (artistOpt titleOpt : Option String) : CleanDB × List CleanEvent × CleanedSong :=
  let names : String × String :=
    match artistOpt, titleOpt with
    | some a, some t => (pyTitle (pyStripStr a), pyTitle (pyStripStr t))
    | _, _ =>
      match splitOnce " - " tally.display_name with
      | (front, some back) => (pyTitle (pyStripStr front), pyTitle (pyStripStr back))
      | (_, none) => ("Unknown", pyTitle (pyStripStr tally.display_name))
  let canonical_name := names.1 ++ " - " ++ names.2
  match db.songs.find? (fun s => lowerStr s.canonical_name == lowerStr canonical_name) with
  | some existing => (db, [], existing)
  | none =>
    let song : CleanedSong := ⟨db.nextSongId, names.1, names.2, canonical_name, "pending"⟩
    ({ db with songs := db.songs ++ [song], nextSongId := db.nextSongId + 1 },
      [.createdSong db.nextSongId], song)

/-- CleaningService._create_mapping: update_or_create the mapping of the
tally's grouping key, pointing it at the given song. -/
def create_mapping (db : CleanDB) (tally : RawSongTally) (song : CleanedSong)
    (is_auto : Bool) : CleanDB × List CleanEvent :=
  let updated : MatchKeyMapping :=
    ⟨tally.match_key, song.id, tally.display_name, tally.count, is_auto⟩
  if db.mappings.any (fun m => m.match_key == tally.match_key) then
    ({ db with mappings := db.mappings.map (fun m =>
        if m.match_key == tally.match_key then updated else m) },
      [.wroteMapping tally.match_key])
  else
    ({ db with mappings := db.mappings ++ [updated] },
      [.wroteMapping tally.match_key])

/-- CleaningService._log_decision: append one audit row (its internal
try/except never fails in the model). -/
def log_decision (db : CleanDB) (input_text input_type action confidence reasoning : String)
    (matched_song : Option CleanedSong) : CleanDB × List CleanEvent :=
  ({ db with decisions := db.decisions ++
      [⟨⟨input_text.data.take 512⟩, input_type, action, confidence,
        ⟨reasoning.data.take 500⟩,
        matched_song.map (fun s => s.id),
        (match matched_song with | some s => s.canonical_name | none => ""),
        true⟩] },
    [.loggedDecision action])

/-- Python truthiness of the matched_song_id field: present and nonzero. -/
def idTruthy : Option Int → Bool
  | some i => i != 0
  | none => false

/-- CleanedSong.objects.get(id=matched_song_id, status='verified'),
returning none on DoesNotExist. -/
def llmMatchedSong (db : CleanDB) (idOpt : Option Int) : Option CleanedSong :=
  match idOpt with
  | some i => db.songs.find? (fun s => ((s.id : Int) == i) && (s.status == "verified"))
  | none => none

/-- The create-pending / create-mapping / log-decision sequence shared by
the invalid-format, no-verified-songs and no-confident-match branches of
_process_single_tally (they differ only in the parsed names, the logged
confidence and reasoning, and the returned action). -/
def pendingFlow (db : CleanDB) (tally : RawSongTally) (artistOpt titleOpt : Option String)
    (confidence reasoning action : String) : CleanDB × List CleanEvent × String :=
  match create_pending_song db tally artistOpt titleOpt with
  | (db1, e1, song) =>
    match create_mapping db1 tally song false with
    | (db2, e2) =>
      match log_decision db2 tally.display_name "raw_vote" "new" confidence reasoning none with
      | (db3, e3) => (db3, e1 ++ e2 ++ e3, action)

/-- CleaningService._process_single_tally: validate the format, consult the
semantic matcher, auto-merge on a high-confidence match and otherwise file
the vote as a new pending song; returns the new state, the write trace and
the action.  The source's try/except around match_vote_with_llm is
unreachable (match_vote_with_llm already catches every exception), so no
llm_error branch arises in the model. -/
def process_single_tally (db : CleanDB) (tally : RawSongTally)
    (verified_songs : List VerifiedSongInfo) (call : LLMCall) :
    CleanDB × List CleanEvent × String :=
  match is_valid_vote_format tally.display_name with
  | (false, _, _) =>
    pendingFlow db tally none none "none"
      "Invalid format - not \"Artist - Song\"" "invalid_format"
  | (true, artist, title) =>
    if verified_songs.isEmpty then
      pendingFlow db tally (some artist) (some title) "none"
        "No verified songs in database" "new_pending"
    else
      let llm_result := match_vote_with_llm artist title verified_songs call
      if llm_result.matched && idTruthy llm_result.matched_song_id then
        match llmMatchedSong db llm_result.matched_song_id with
        | some matched_song =>
          match create_mapping db tally matched_song true with
          | (db2, e2) =>
            match log_decision db2 tally.display_name "raw_vote" "auto_merge" "high"
                llm_result.reasoning (some matched_song) with
            | (db3, e3) => (db3, e2 ++ e3, "auto_merged")
        | none =>
          pendingFlow db tally (some artist) (some title)
            llm_result.confidence llm_result.reasoning "new_pending"
      else
        pendingFlow db tally (some artist) (some title)
          llm_result.confidence llm_result.reasoning "new_pending"

/-- Event classifier: a DecisionLog write. -/
def isLogEvent : CleanEvent → Bool
  | .loggedDecision _ => true
  | _ => false

/-- Event classifier: a MatchKeyMapping or CleanedSong mutation. -/
def isMutationEvent : CleanEvent → Bool
  | .loggedDecision _ => false
  | _ => true

/-- The DecisionLog write precedes every mutation in the trace. -/
def logsPrecedeMutations (events : List CleanEvent) : Prop :=
  ∀ i j : Fin events.length,
    isLogEvent (events.get i) = true → isMutationEvent (events.get j) = true →
      (i : Nat) < (j : Nat)

instance (events : List CleanEvent) : Decidable (logsPrecedeMutations events) := by
  unfold logsPrecedeMutations
  infer_instance

/-- Every mutation in the trace precedes the DecisionLog write. -/
def mutationsPrecedeLogs (events : List CleanEvent) : Prop :=
  ∀ i j : Fin events.length,
    isMutationEvent (events.get i) = true → isLogEvent (events.get j) = true →
      (i : Nat) < (j : Nat)

instance (events : List CleanEvent) : Decidable (mutationsPrecedeLogs events) := by
  unfold mutationsPrecedeLogs
  infer_instance

/-- The trace consists of mutations followed by exactly one DecisionLog
write. -/
def traceIsMutationsThenLog (events : List CleanEvent) : Prop :=
  ∃ pre act, events = pre ++ [CleanEvent.loggedDecision act]
    ∧ ∀ e ∈ pre, isMutationEvent e = true

/-!
### text_cleaning.py: typo correction, word normalization and the
normalization pipeline of matching.normalize_vote_input

The regular-expression substitutions of the source are embedded as
character-level scanners with Python re semantics for the concrete
patterns involved: re.sub scans the original text left to right, replaces
each leftmost non-overlapping match and resumes after it; \b holds where
exactly one neighbour is a word character; quantifiers are greedy, and for
these patterns the greedy choice never needs backtracking into a
whitespace run (every continuation starts with a non-whitespace literal),
so maximal-run scanning is exact.
-/

/-- Is the character before the current position a word character (start
of text counts as not). -/
def prevWord : Option Char → Bool
  | some c => isWordChar c
  | none => false

/-- Does the remaining text start with a word character (end of text
counts as not). -/
def headIsWord : List Char → Bool
  | [] => false
  | c :: _ => isWordChar c

/-- Case-insensitive literal match: pattern (given lowercase) against the
head of the text, returning the rest. -/
def stripCI : List Char → List Char → Option (List Char)
  | [], t => some t
  | _, [] => none
  | p :: ps, c :: cs => if c.toLower == p then stripCI ps cs else none

/-- Case-sensitive literal match against the head of the text. -/
def stripCS : List Char → List Char → Option (List Char)
  | [], t => some t
  | _, [] => none
  | p :: ps, c :: cs => if c == p then stripCS ps cs else none

/-- Length of the leading run of characters satisfying p. -/
def countLeading (p : Char → Bool) : List Char → Nat
  | [] => 0
  | c :: cs => if p c then countLeading p cs + 1 else 0

/-- re.sub driver: at each position of the original text try the matcher
(given the previous original character for \b lookbehind); on a match of
n+1 characters emit the replacement and resume after the match, else copy
one character.  Fuel is the text length; every match consumes at least one
character. -/
def substAux (m : Option Char → List Char → Option Nat) (repl : List Char) :
    Nat → Option Char → List Char → List Char
  | 0, _, t => t
  | fuel + 1, prev, t =>
    match t with
    | [] => []
    | c :: cs =>
      match m prev t with
      | some (n + 1) =>
        repl ++ substAux m repl fuel ((t.get? n).getD c) (t.drop (n + 1))
      | _ => c :: substAux m repl fuel (some c) cs

/-- re.sub over Strings. -/
def pySub (m : Option Char → List Char → Option Nat) (repl s : String) : String :=
  ⟨substAux m repl.data s.data.length none s.data⟩

/-- re.sub(r"\s+", " ", text).strip(). -/
def collapseStrip (s : String) : String :=
  ⟨collapseWs (pyStrip s.data)⟩

/-- Matcher for \bfeaturing\b (IGNORECASE). -/
def mFeaturing (prev : Option Char) (t : List Char) : Option Nat :=
  if prevWord prev then none
  else
    match stripCI "featuring".data t with
    | some rest => if headIsWord rest then none else some 9
    | none => none

/-- Matcher for \bw\.?\b (IGNORECASE) with w a word of word characters
(used for feat and ft): the greedy optional dot is kept only when a word
character follows it, as in Python's backtracking. -/
def mWordOptDot (w : List Char) (prev : Option Char) (t : List Char) : Option Nat :=
  if prevWord prev then none
  else
    match stripCI w t with
    | some rest =>
      match rest with
      | '.' :: rest2 => if headIsWord rest2 then some (w.length + 1) else some w.length
      | _ => if headIsWord rest then none else some w.length
    | none => none

/-- Matcher for feat\.\.+ (case-sensitive: the source omits re.IGNORECASE
on this cleanup pass). -/
def mFeatDots (_ : Option Char) (t : List Char) : Option Nat :=
  match stripCS "feat.".data t with
  | some rest =>
    let k := countLeading (· == '.') rest
    if k = 0 then none else some (5 + k)
  | none => none

/-- Matcher for \s+&\s+. -/
def mAmp (_ : Option Char) (t : List Char) : Option Nat :=
  let k := countLeading pyWs t
  if k = 0 then none
  else
    match t.drop k with
    | '&' :: rest =>
      let j := countLeading pyWs rest
      if j = 0 then none else some (k + 1 + j)
    | _ => none

/-- Matcher for \s+x\s+ (IGNORECASE). -/
def mCollabX (_ : Option Char) (t : List Char) : Option Nat :=
  let k := countLeading pyWs t
  if k = 0 then none
  else
    match t.drop k with
    | c :: rest =>
      if c.toLower == 'x' then
        let j := countLeading pyWs rest
        if j = 0 then none else some (k + 1 + j)
      else none
    | _ => none

/-- Tail \s*by\b of the producer patterns, returning the consumed length. -/
def mByTail (rest : List Char) : Option Nat :=
  let j := countLeading pyWs rest
  match stripCI "by".data (rest.drop j) with
  | some rest2 => if headIsWord rest2 then none else some (j + 2)
  | none => none

/-- Matcher for \bprod\.?\s*by\b (IGNORECASE); when the dot branch fails
the dotless branch would have to read "by" at the dot, so it fails too. -/
def mProdBy (prev : Option Char) (t : List Char) : Option Nat :=
  if prevWord prev then none
  else
    match stripCI "prod".data t with
    | some rest =>
      match rest with
      | '.' :: rest2 => (mByTail rest2).map (fun n => 4 + 1 + n)
      | _ => (mByTail rest).map (fun n => 4 + n)
    | none => none

/-- Matcher for \bproduced\s*by\b (IGNORECASE). -/
def mProducedBy (prev : Option Char) (t : List Char) : Option Nat :=
  if prevWord prev then none
  else
    match stripCI "produced".data t with
    | some rest => (mByTail rest).map (fun n => 8 + n)
    | none => none

/-- text_cleaning.normalize_common_words: the eight substitution passes
followed by whitespace collapation and strip. -/
def normalize_common_words (text : String) : String :=
  let t1 := pySub mFeaturing "feat." text
  let t2 := pySub (mWordOptDot "feat".data) "feat." t1
  let t3 := pySub (mWordOptDot "ft".data) "feat." t2
  let t4 := pySub mFeatDots "feat." t3
  let t5 := pySub mAmp " and " t4
  let t6 := pySub mCollabX " feat. " t5
  let t7 := pySub mProdBy "" t6
  let t8 := pySub mProducedBy "" t7
  collapseStrip t8

/-- Sequencing of consumed-length matchers. -/
def mSeq (f g : List Char → Option Nat) (t : List Char) : Option Nat :=
  match f t with
  | some n =>
    match g (t.drop n) with
    | some m => some (n + m)
    | none => none
  | none => none

/-- Ordered alternation of consumed-length matchers. -/
def mAlt (f g : List Char → Option Nat) (t : List Char) : Option Nat :=
  match f t with
  | some n => some n
  | none => g t

/-- Case-insensitive literal as a consumed-length matcher. -/
def mLit (w : String) (t : List Char) : Option Nat :=
  (stripCI w.data t).map (fun _ => w.length)

/-- \s* as a consumed-length matcher. -/
def mWsStar (t : List Char) : Option Nat :=
  some (countLeading pyWs t)

/-- Greedy optional group; for the title patterns a kept group that fails
later also fails when dropped, so no backtracking is needed. -/
def mOpt (f : List Char → Option Nat) (t : List Char) : Option Nat :=
  match f t with
  | some n => some n
  | none => some 0

/-- (video|audio|lyric[s]?) of the official-video patterns. -/
def mAvl : List Char → Option Nat :=
  mAlt (mLit "video") (mAlt (mLit "audio") (mSeq (mLit "lyric") (mOpt (mLit "s"))))

/-- One official-video pattern with the given brackets:
\(official\s*(music\s*)?(video|audio|lyric[s]?)\) (IGNORECASE). -/
def mOfficialAvl (op cl : String) : List Char → Option Nat :=
  mSeq (mLit (op ++ "official"))
    (mSeq mWsStar (mSeq (mOpt (mSeq (mLit "music") mWsStar)) (mSeq mAvl (mLit cl))))

/-- \(lyric[s]?\s*video\) with the given brackets (IGNORECASE). -/
def mLyricVideo (op cl : String) : List Char → Option Nat :=
  mSeq (mLit (op ++ "lyric"))
    (mSeq (mOpt (mLit "s")) (mSeq mWsStar (mLit ("video" ++ cl))))

/-- \(radio\s*edit\) (IGNORECASE). -/
def mRadioEdit : List Char → Option Nat :=
  mSeq (mLit "(radio") (mSeq mWsStar (mLit "edit)"))

/-- \(extended\s*(mix|version)?\) (IGNORECASE). -/
def mExtended : List Char → Option Nat :=
  mSeq (mLit "(extended")
    (mSeq mWsStar (mSeq (mOpt (mAlt (mLit "mix") (mLit "version"))) (mLit ")")))

/-- The 23 removal patterns of clean_song_title, in source order. -/
def titlePatterns : List (List Char → Option Nat) :=
  [mOfficialAvl "(" ")", mOfficialAvl "[" "]",
   mLyricVideo "(" ")", mLyricVideo "[" "]",
   mLit "(audio)", mLit "[audio]", mLit "(video)", mLit "[video]",
   mLit "(visualizer)", mLit "[visualizer]", mLit "(official)", mLit "[official]",
   mLit "(hd)", mLit "[hd]", mLit "(4k)", mLit "[4k]",
   mLit "(live)", mLit "[live]", mLit "(acoustic)", mLit "[acoustic]",
   mLit "(remix)", mRadioEdit, mExtended]

/-- Python str.strip("- "): drop any of the characters from both ends. -/
def stripDashSpace (l : List Char) : List Char :=
  ((l.dropWhile (fun c => c == '-' || c == ' ')).reverse.dropWhile
    (fun c => c == '-' || c == ' ')).reverse

/-- text_cleaning.clean_song_title: remove the suffix patterns, collapse
whitespace, strip, then strip dashes and spaces. -/
def clean_song_title (title : String) : String :=
  let c := titlePatterns.foldl (fun acc p => pySub (fun _ => p) "" acc) title
  ⟨stripDashSpace (collapseStrip c).data⟩

/-- A candidate group of (.+)$: nonempty after ignoring one final newline
of the text, and crossing no newline. -/
def validGroup (g : List Char) : Bool :=
  let g2 := if g.getLast? = some '\n' then g.dropLast else g
  !g2.isEmpty && !g2.contains '\n'

/-- Greedy \s+(.+)$ after "feat\.?": j counts down from the maximal
whitespace run, as Python gives back whitespace to (.+) when needed. -/
def featGroupFrom : Nat → List Char → Option (List Char)
  | 0, _ => none
  | j + 1, after =>
    let g := after.drop (j + 1)
    if validGroup g then some g else featGroupFrom j after

/-- Match \s+feat\.?\s+(.+)$ (IGNORECASE) at this position, returning the
group; when the dot branch fails, the dotless branch reads \s+ at the dot
and fails too. -/
def featAt (t : List Char) : Option (List Char) :=
  let k := countLeading pyWs t
  if k = 0 then none
  else
    match stripCI "feat".data (t.drop k) with
    | none => none
    | some rest =>
      match rest with
      | '.' :: rest2 => featGroupFrom (countLeading pyWs rest2) rest2
      | _ => featGroupFrom (countLeading pyWs rest) rest

/-- re.search for the feat pattern: the leftmost position where it
matches, with the group. -/
def featSearchAux : Nat → Nat → List Char → Option (Nat × List Char)
  | 0, _, _ => none
  | fuel + 1, i, t =>
    match featAt t with
    | some g => some (i, g)
    | none =>
      match t with
      | [] => none
      | _ :: cs => featSearchAux fuel (i + 1) cs

/-- Delimiter of re.split(r",\s*|\s+and\s+", ...) at this position (the
split of line 224, whose "and" branch is case-sensitive: the call has no
re.IGNORECASE). -/
def splitDelimCS (t : List Char) : Option Nat :=
  match t with
  | ',' :: rest => some (1 + countLeading pyWs rest)
  | _ =>
    let k := countLeading pyWs t
    if k = 0 then none
    else
      match stripCS "and".data (t.drop k) with
      | some rest =>
        let j := countLeading pyWs rest
        if j = 0 then none else some (k + 3 + j)
      | none => none

/-- Delimiter of re.split(r"\s+and\s+", ..., flags=re.IGNORECASE). -/
def splitDelimAndCI (t : List Char) : Option Nat :=
  let k := countLeading pyWs t
  if k = 0 then none
  else
    match stripCI "and".data (t.drop k) with
    | some rest =>
      let j := countLeading pyWs rest
      if j = 0 then none else some (k + 3 + j)
    | none => none

/-- re.split driver over a delimiter matcher (every delimiter consumes at
least one character). -/
def splitByAux (d : List Char → Option Nat) : Nat → List Char → List Char → List (List Char)
  | 0, acc, t => [acc.reverse ++ t]
  | fuel + 1, acc, [] => [acc.reverse]
  | fuel + 1, acc, c :: cs =>
    match d (c :: cs) with
    | some (n + 1) => acc.reverse :: splitByAux d fuel [] ((c :: cs).drop (n + 1))
    | _ => splitByAux d fuel (c :: acc) cs

/-- re.split over Strings. -/
def pySplitBy (d : List Char → Option Nat) (s : String) : List String :=
  (splitByAux d (s.data.length + 1) [] s.data).map (fun l => (⟨l⟩ : String))

/-- text_cleaning.extract_featured_artists. -/
def extract_featured_artists (text : String) : String × List String :=
  let t := text.data
  match featSearchAux (t.length + 1) 0 t with
  | some (i, g) =>
    let main : String := ⟨pyStrip (t.take i)⟩
    let fp : String := ⟨pyStrip g⟩
    ((main, ((pySplitBy splitDelimCS fp).map pyStripStr).filter (fun a => a ≠ "")))
  | none =>
    if containsSubstr " and " (lowerStr text) && !t.contains '-' then
      match (pySplitBy splitDelimAndCI text) with
      | p0 :: p1 :: rest =>
        (pyStripStr p0, ((p1 :: rest).map pyStripStr).filter (fun a => a ≠ ""))
      | _ => (text, [])
    else (text, [])

/-- ", "-separated join (str.join). -/
def joinSep (sep : String) : List String → String
  | [] => ""
  | [x] => x
  | x :: xs => x ++ sep ++ joinSep sep xs

/-- text_cleaning.parse_artist_with_features. -/
def parse_artist_with_features (artist_raw : String) : String × String :=
  let an := normalize_common_words artist_raw
  match extract_featured_artists an with
  | (main, featured) =>
    if featured.isEmpty then (main, "")
    else (main, "feat. " ++ joinSep ", " featured)

/-- The ARTIST_TYPO_CORRECTIONS dictionary (the literal repeats the key
winkyd with the same value; the dict keeps one entry). -/
def ARTIST_TYPO_CORRECTIONS : List (String × String) :=
  [("winkyd", "Winky D"), ("winky", "Winky D"), ("winki d", "Winky D"),
   ("winkie d", "Winky D"), ("winked", "Winky D"),
   ("jah prayza", "Jah Prayzah"), ("jahprayzah", "Jah Prayzah"),
   ("jah praiza", "Jah Prayzah"), ("jah prayzer", "Jah Prayzah"),
   ("jah prazah", "Jah Prayzah"), ("ja prayzah", "Jah Prayzah"),
   ("jahprayza", "Jah Prayzah"),
   ("holyten", "Holy Ten"), ("holy 10", "Holy Ten"), ("holy10", "Holy Ten"),
   ("hollyten", "Holy Ten"), ("holly ten", "Holy Ten"),
   ("enzoishall", "Enzo Ishall"), ("enzo ishal", "Enzo Ishall"),
   ("enzo ishaal", "Enzo Ishall"), ("enzoishal", "Enzo Ishall"),
   ("freemn", "Freeman"), ("freman", "Freeman"), ("free man", "Freeman"),
   ("killert", "Killer T"), ("killer", "Killer T"), ("killa t", "Killer T"),
   ("killat", "Killer T"),
   ("macheso", "Alick Macheso"), ("alik macheso", "Alick Macheso"),
   ("aleck macheso", "Alick Macheso"),
   ("jahsignal", "Jah Signal"), ("jah singal", "Jah Signal"),
   ("ja signal", "Jah Signal"),
   ("tockyvibes", "Tocky Vibes"), ("toky vibes", "Tocky Vibes"),
   ("tocky vibe", "Tocky Vibes"),
   ("ex q", "ExQ"), ("ex-q", "ExQ"), ("exque", "ExQ"),
   ("nuttyo", "Nutty O"), ("nutty", "Nutty O"), ("nuty o", "Nutty O"),
   ("tigonzi", "Ti Gonzi"), ("ti gonzy", "Ti Gonzi"), ("tigonzy", "Ti Gonzi"),
   ("amara brown", "Ammara Brown"), ("ammara", "Ammara Brown"),
   ("ammarabrown", "Ammara Brown"),
   ("tuku", "Oliver Mtukudzi"), ("mtukudzi", "Oliver Mtukudzi"),
   ("oliver mtukudzi", "Oliver Mtukudzi"),
   ("sulu", "Suluman Chimbetu"), ("sulumani", "Suluman Chimbetu"),
   ("chimbetu", "Suluman Chimbetu"),
   ("takura teemba", "Takura"), ("takurateemba", "Takura"),
   ("voltzjt", "Voltz JT"), ("voltz", "Voltz JT"), ("voltsjt", "Voltz JT")]

/-- Dictionary lookup in the typo table. -/
def lookupTypo (k : String) : Option String :=
  (ARTIST_TYPO_CORRECTIONS.find? (fun p => p.1 == k)).map Prod.snd

/-- text_cleaning.correct_artist_typo: lower/strip lookup, then a lookup
with the spaces removed (str.replace removes the space character only). -/
def correct_artist_typo (artist : String) : String :=
  let al := pyStripStr (lowerStr artist)
  match lookupTypo al with
  | some c => c
  | none =>
    match lookupTypo ⟨al.data.filter (fun c => c ≠ ' ')⟩ with
    | some c => c
    | none => artist

/-- Python str.replace(pat, "") for a nonempty literal pattern. -/
def removeAllAux (pat : List Char) : Nat → List Char → List Char
  | 0, t => t
  | _ + 1, [] => []
  | fuel + 1, c :: cs =>
    match stripCS pat (c :: cs) with
    | some rest => removeAllAux pat fuel rest
    | none => c :: removeAllAux pat fuel cs

/-- str.replace(pat, "") over Strings. -/
def removeAll (pat s : String) : String :=
  ⟨removeAllAux pat.data s.data.length s.data⟩

/-- Python str.split(sep) for a nonempty literal separator (split("") is
never called by the source). -/
def splitLitAux (sep : List Char) : Nat → List Char → List Char → List (List Char)
  | 0, acc, t => [acc.reverse ++ t]
  | _ + 1, acc, [] => [acc.reverse]
  | fuel + 1, acc, c :: cs =>
    match stripCS sep (c :: cs) with
    | some rest => acc.reverse :: splitLitAux sep fuel [] rest
    | none => splitLitAux sep fuel (c :: acc) cs

/-- str.split(sep) over Strings. -/
def splitLit (sep s : String) : List String :=
  (splitLitAux sep.data (s.data.length + 1) [] s.data).map (fun l => (⟨l⟩ : String))

/-- text_cleaning.clean_vote_text: the seven cleaning steps. -/
def clean_vote_text (artist_raw song_raw : String) : String × String :=
  let artist0 := normalize_common_words artist_raw
  let song0 := clean_song_title (normalize_common_words song_raw)
  match parse_artist_with_features artist0 with
  | (main0, featured0) =>
    let main1 := correct_artist_typo main0
    let featured1 :=
      if featured0 ≠ "" then
        "feat. " ++ joinSep ", "
          ((splitLit ", " (removeAll "feat. " featured0)).map
            (fun n => correct_artist_typo (pyStripStr n)))
      else ""
    let artist1 := if featured1 ≠ "" then main1 ++ " " ++ featured1 else main1
    match parse_artist_with_features song0 with
    | (song_main, song_featured) =>
      if song_featured ≠ "" then
        let existing := if featured1 ≠ "" then removeAll "feat. " featured1 else ""
        let all0 := ((splitLit "," existing).map pyStripStr).filter (fun a => a ≠ "")
        let all1 := all0 ++
          (((splitLit ", " (removeAll "feat. " song_featured)).map pyStripStr).filter
            (fun a => a ≠ "")).map correct_artist_typo
        let artist2 :=
          if all1.isEmpty then artist1 else main1 ++ " feat. " ++ joinSep ", " all1
        (pyStripStr artist2, pyStripStr song_main)
      else (pyStripStr artist1, pyStripStr song0)

/-- matching.match_verified_artist over the verified-artist cache, a
normalized-name -> canonical-name dictionary given as an association
list: exact dictionary hit first, then the best strictly improving fuzzy
score at or above the artist threshold. -/
def match_verified_artist (verified : List (String × String))
    (artist_input : String) : Option String :=
  let an := normalize_text artist_input
  match (verified.find? (fun p => p.1 == an)).map Prod.snd with
  | some c => some c
  | none =>
    (verified.foldl (fun acc p =>
      let score := similarity_ratio an p.1
      if acc.1 < score ∧ ARTIST_SIMILARITY_THRESHOLD ≤ score then (score, some p.2)
      else acc) ((0 : ℚ), (none : Option String))).2

/-- matching.normalize_vote_input over explicit CleanedSong and
verified-artist tables: clean, correct typos, try the known-song tier,
then the verified-artist tier, and fall back to title-cased cleanup;
returns (artist_display, song_display, match_key, display_name). -/
def normalize_vote_input (songs : List CleanedSong)
    (verified : List (String × String)) (artist_raw song_raw : String) :
    String × String × String × String :=
  match clean_vote_text artist_raw song_raw with
  | (artist_cleaned0, song_cleaned) =>
    let artist_cleaned := correct_artist_typo artist_cleaned0
    match match_against_known_songs songs artist_cleaned song_cleaned with
    | some r => r
    | none =>
      let artist_display :=
        match match_verified_artist verified artist_cleaned with
        | some v => v
        | none => pyTitle (collapseStrip artist_cleaned)
      let song_display := pyTitle (collapseStrip song_cleaned)
      (artist_display, song_display,
        normalize_text artist_display ++ "::" ++ normalize_text song_display,
        artist_display ++ " - " ++ song_display)

/-!
### services.py: vote intake

timezone.localdate() and cache TTLs are modelled over a single clock t in
seconds, with the vote date t / 86400.  The md5-keyed spam cache key
"spam_(user_ref)_(hash)" is modelled by the pair of the user_ref and the
normalized message (the 16-hex-digit truncated md5 is treated as
collision-free).  The _process_vote_async step only touches the cleaning
tables (and swallows every exception), so the intake state omits it.
-/

/-- MAX_VOTES_PER_DAY. -/
def MAX_VOTES_PER_DAY : Nat := 5

/-- SPAM_WINDOW_SECONDS. -/
def SPAM_WINDOW_SECONDS : Nat := 60

/-- SPAM_MAX_IDENTICAL. -/
def SPAM_MAX_IDENTICAL : Nat := 3

/-- The character class [a-zA-Z0-9-] of the URL pattern's domain branch. -/
def isUrlClassChar (c : Char) : Bool :=
  c.isAlpha || c.isDigit || c == '-'

/-- The top-level-domain alternation of URL_PATTERN. -/
def urlTlds : List String :=
  ["com", "org", "net", "io", "co", "me", "buzz", "info", "biz", "xyz",
   "online", "site", "link", "click"]

/-- One alternative of URL_PATTERN at the current position (IGNORECASE):
https?:// or www\. or \b[a-zA-Z0-9-]+\.(tld)\b. -/
def urlAt (prev : Option Char) (t : List Char) : Bool :=
  (match stripCI "http".data t with
   | some rest =>
     (match rest with
      | 's' :: r2 => ("://".data.isPrefixOf r2) || ("://".data.isPrefixOf rest)
      | 'S' :: r2 => ("://".data.isPrefixOf r2) || ("://".data.isPrefixOf rest)
      | _ => "://".data.isPrefixOf rest)
   | none => false)
  || (stripCI "www.".data t).isSome
  || (prevWord prev != headIsWord t &&
      (let k := countLeading isUrlClassChar t
       decide (1 ≤ k) &&
       (match t.drop k with
        | '.' :: after =>
          urlTlds.any (fun tld =>
            match stripCI tld.data after with
            | some rest => !headIsWord rest
            | none => false)
        | _ => false)))

/-- re.search of URL_PATTERN: some position matches. -/
def urlScanAux : Nat → Option Char → List Char → Bool
  | 0, _, _ => false
  | fuel + 1, prev, t =>
    if urlAt prev t then true
    else
      match t with
      | [] => false
      | c :: cs => urlScanAux fuel (some c) cs

/-- URL_PATTERN.search over a String. -/
def urlSearch (s : String) : Bool :=
  urlScanAux (s.data.length + 1) none s.data

/-- Codepoint membership in one of EMOJI_PATTERN's ranges. -/
def isEmojiChar (c : Char) : Bool :=
  let n := c.toNat
  decide ((0x1F600 ≤ n ∧ n ≤ 0x1F64F) ∨ (0x1F300 ≤ n ∧ n ≤ 0x1F5FF) ∨
    (0x1F680 ≤ n ∧ n ≤ 0x1F6FF) ∨ (0x1F1E0 ≤ n ∧ n ≤ 0x1F1FF) ∨
    (0x2702 ≤ n ∧ n ≤ 0x27B0) ∨ (0x1F900 ≤ n ∧ n ≤ 0x1F9FF) ∨
    (0x1FA00 ≤ n ∧ n ≤ 0x1FA6F) ∨ (0x1FA70 ≤ n ∧ n ≤ 0x1FAFF) ∨
    (0x2600 ≤ n ∧ n ≤ 0x26FF))

/-- MAX_EMOJIS. -/
def MAX_EMOJIS : Nat := 2

/-- services.validate_vote_content with the source's messages verbatim. -/
def validate_vote_content (text : String) : Bool × Option String :=
  if urlSearch text then
    (false, some "❌ Links are not allowed.\n\nPlease send only your vote:\nArtist - Song\n\nExample: Winky D - Ijipita")
  else if MAX_EMOJIS < (text.data.filter isEmojiChar).length then
    (false, some "❌ Too many emojis.\n\nPlease send a simple vote:\nArtist - Song\n\nExample: Winky D - Ijipita")
  else if 100 < text.length then
    (false, some "❌ Message too long.\n\nPlease send a simple vote:\nArtist - Song\n\nExample: Winky D - Ijipita")
  else if 1 < (text.data.filter (fun c => c == '\n')).length then
    (false, some "❌ Please send a single line vote.\n\nFormat: Artist - Song\n\nExample: Winky D - Ijipita")
  else if 2 < (text.data.filter (fun c => c == '.')).length
      + (text.data.filter (fun c => c == '?')).length
      + (text.data.filter (fun c => c == '!')).length then
    (false, some "❌ Please send just the song vote.\n\nFormat: Artist - Song\n\nExample: Winky D - Ijipita")
  else (true, none)

/-- One spam-cache entry: key (user_ref, normalized message), the count
and the absolute expiry time. -/
structure SpamEntry where
  user_ref : String
  msg_norm : String
  count : Nat
  expires : Nat
deriving DecidableEq

/-- cache.get(cache_key, 0): the stored count when not expired. -/
def spamGet (cache : List SpamEntry) (ur mn : String) (t : Nat) : Nat :=
  match cache.find? (fun e => e.user_ref == ur && e.msg_norm == mn) with
  | some e => if t < e.expires then e.count else 0
  | none => 0

/-- cache.set(cache_key, c, SPAM_WINDOW_SECONDS). -/
def spamSet (cache : List SpamEntry) (ur mn : String) (c t : Nat) : List SpamEntry :=
  if cache.any (fun e => e.user_ref == ur && e.msg_norm == mn) then
    cache.map (fun e =>
      if e.user_ref == ur && e.msg_norm == mn then ⟨ur, mn, c, t + SPAM_WINDOW_SECONDS⟩
      else e)
  else cache ++ [⟨ur, mn, c, t + SPAM_WINDOW_SECONDS⟩]

/-- The \s*-\s* separator of SEPARATOR_PATTERN at the current position. -/
def dashSepAt (t : List Char) : Option Nat :=
  let k := countLeading pyWs t
  match t.drop k with
  | '-' :: rest => some (k + 1 + countLeading pyWs rest)
  | _ => none

/-- Leftmost SEPARATOR_PATTERN match (maxsplit=1): the text before it and
after it. -/
def dashSplitAux : Nat → List Char → List Char → Option (List Char × List Char)
  | 0, _, _ => none
  | fuel + 1, acc, t =>
    match dashSepAt t with
    | some n => some (acc.reverse, t.drop n)
    | none =>
      match t with
      | [] => none
      | c :: cs => dashSplitAux fuel (c :: acc) cs

/-- services.parse_vote_input: some (none, song) is a song-only vote,
some (some artist, song) a standard vote, none is invalid. -/
def parse_vote_input (text : String) : Option (Option String × String) :=
  if !text.data.contains '-' then
    let cleaned := pyStripStr text
    if 3 ≤ cleaned.length ∧ cleaned.length ≤ 100 then some (none, cleaned) else none
  else
    match dashSplitAux (text.data.length + 1) [] text.data with
    | none => none
    | some (front, back) =>
      let artist : String := ⟨pyStrip front⟩
      let song : String := ⟨pyStrip back⟩
      if artist.length < 2 ∨ song.length < 2 then none else some (some artist, song)

/-- matching.is_similar. -/
def is_similar (text1 text2 : String) (threshold : ℚ) : Bool :=
  normalize_text text1 == normalize_text text2
  || decide (threshold ≤ similarity_ratio (normalize_text text1) (normalize_text text2))

/-- matching.find_existing_song_match over the RawSongTally rows of the
given date, in table order. -/
def find_existing_song_match (artist_normalized song_normalized : String) :
    List RawSongTally → Option RawSongTally
  | [] => none
  | tally :: rest =>
    match splitOnce "::" tally.match_key with
    | (_, none) => find_existing_song_match artist_normalized song_normalized rest
    | (existing_artist, some existing_song) =>
      if is_similar artist_normalized existing_artist ARTIST_SIMILARITY_THRESHOLD then
        if is_similar song_normalized existing_song SONG_SIMILARITY_THRESHOLD then some tally
        else find_existing_song_match artist_normalized song_normalized rest
      else find_existing_song_match artist_normalized song_normalized rest

/-- matching.smart_normalize_vote: normalize_vote_input, then regroup onto
a fuzzy-matching existing tally of the same date. -/
def smart_normalize_vote (songs : List CleanedSong) (verified : List (String × String))
    (tallies : List RawSongTally) (artist_raw song_raw : String) (vote_date : Nat) :
    String × String × String × String :=
  match normalize_vote_input songs verified artist_raw song_raw with
  | (artist_display, song_display, match_key, display_name) =>
    match find_existing_song_match (normalize_text artist_display)
        (normalize_text song_display) (tallies.filter (fun x => x.date == vote_date)) with
    | some existing => (artist_display, song_display, existing.match_key, existing.display_name)
    | none => (artist_display, song_display, match_key, display_name)

/-- Second tier of find_song_by_title_only: scan today's tallies carrying
the best score of the CleanedSong tier, returning on the first strict
improvement at or above the song threshold whose display name splits. -/
def fsbtoTallies (song_normalized : String) : ℚ → List RawSongTally →
    Option (String × String × String × String)
  | _, [] => none
  | best_score, tally :: rest =>
    match splitOnce "::" tally.match_key with
    | (_, none) => fsbtoTallies song_normalized best_score rest
    | (existing_artist, some existing_song) =>
      if existing_artist = "unknown" then fsbtoTallies song_normalized best_score rest
      else
        let score := similarity_ratio song_normalized existing_song
        if best_score < score ∧ SONG_SIMILARITY_THRESHOLD ≤ score then
          match splitOnce " - " tally.display_name with
          | (p0, some p1) => some (p0, p1, tally.match_key, tally.display_name)
          | (_, none) => fsbtoTallies song_normalized score rest
        else fsbtoTallies song_normalized best_score rest

/-- matching.find_song_by_title_only over the CleanedSong table and
today's tallies. -/
def find_song_by_title_only (songs : List CleanedSong) (tallies : List RawSongTally)
    (today : Nat) (song_raw : String) : Option (String × String × String × String) :=
  let song_normalized := normalize_text song_raw
  let best := songs.foldl (fun acc s =>
      let score := similarity_ratio song_normalized (normalize_text s.title)
      if acc.1 < score ∧ SONG_SIMILARITY_THRESHOLD ≤ score then (score, some s) else acc)
    ((0 : ℚ), (none : Option CleanedSong))
  match best.2 with
  | some s =>
    some (s.artist, s.title,
      normalize_text s.artist ++ "::" ++ normalize_text s.title, s.canonical_name)
  | none =>
    fsbtoTallies song_normalized best.1 (tallies.filter (fun x => x.date == today))

/-- One RawVote row. -/
structure RawVoteRec where
  channel : String
  user_ref : String
  raw_input : String
  artist_raw : String
  song_raw : String
  artist_normalized : String
  song_normalized : String
  match_key : String
  display_name : String
  vote_date : Nat
deriving DecidableEq

/-- The intake state: User, RawVote and RawSongTally tables, the spam
cache, and the read-only matching tables (CleanedSong rows and the
verified-artist cache). -/
structure VoteState where
  users : List (String × String)
  rawVotes : List RawVoteRec
  rawTallies : List RawSongTally
  spamCache : List SpamEntry
  songs : List CleanedSong
  verifiedArtists : List (String × String)
deriving DecidableEq

/-- VotingService._welcome_message. -/
def welcome_message : String :=
  "🎶 Welcome to Radio Zimbabwe Top 100!\n\nVote for your favorite songs!\n\nSend: Artist - Song\nExample: Winky D - Ijipita\n\nYou can vote for up to " ++ toString MAX_VOTES_PER_DAY ++ " songs per day."

/-- VotingService._help_message. -/
def help_message : String :=
  "📋 How to vote:\n\nSend: Artist - Song\nExample: Jah Prayzah - Mwana WaMambo\n\n• You can vote for up to " ++ toString MAX_VOTES_PER_DAY ++ " different songs per day\n• You cannot vote for the same song twice in one day\n• Votes reset daily at midnight\n\nType /start to begin!"

/-- The resolved vote of the two branches below the parse: (artist_raw,
song_raw, artist_normalized, song_normalized, match_key, display_name). -/
def resolve_vote (songs : List CleanedSong) (verified : List (String × String))
    (tallies : List RawSongTally) (today : Nat) (parsed : Option String × String) :
    String × String × String × String × String × String :=
  match parsed with
  | (none, song_raw) =>
    match find_song_by_title_only songs tallies today song_raw with
    | some (artist_display, _, match_key, display_name) =>
      (artist_display, song_raw, normalize_text artist_display,
        normalize_text song_raw, match_key, display_name)
    | none =>
      let song_display := pyTitle song_raw
      let song_normalized := normalize_text song_raw
      ("Unknown Artist", song_raw, "unknown", song_normalized,
        "unknown::" ++ song_normalized, "Unknown Artist - " ++ song_display)
  | (some artist_raw, song_raw) =>
    match smart_normalize_vote songs verified tallies artist_raw song_raw today with
    | (_, _, match_key, display_name) =>
      (artist_raw, song_raw, normalize_text artist_raw,
        normalize_text song_raw, match_key, display_name)

/-- RawSongTally.objects.get_or_create of the day's key followed by
count += 1 and the display-name refresh. -/
def bumpTally (tallies : List RawSongTally) (today : Nat) (mk dn : String) :
    List RawSongTally :=
  if tallies.any (fun x => x.date == today && x.match_key == mk) then
    tallies.map (fun x =>
      if x.date == today && x.match_key == mk then ⟨x.date, x.match_key, dn, x.count + 1⟩
      else x)
  else tallies ++ [⟨today, mk, dn, 1⟩]

/-- VotingService.handle_incoming_text: returns the new state and the
reply.  The clock t is in seconds and today = t / 86400. -/
def handle_incoming_text (st : VoteState) (channel user_ref : String) (t : Nat)
    (text0 : String) : VoteState × String :=
  let text := pyStripStr text0
  if text = "" then (st, welcome_message)
  else if lowerStr text = "/start" ∨ lowerStr text = "start" then (st, welcome_message)
  else if lowerStr text = "/help" ∨ lowerStr text = "help" then (st, help_message)
  else
    let st1 := if st.users.contains (channel, user_ref) then st
      else { st with users := st.users ++ [(channel, user_ref)] }
    let today := t / 86400
    let todays_count := (st1.rawVotes.filter (fun v =>
      v.channel == channel && v.user_ref == user_ref && v.vote_date == today)).length
    if MAX_VOTES_PER_DAY ≤ todays_count then
      (st1, "🚫 You have used all " ++ toString MAX_VOTES_PER_DAY
        ++ " votes for today.\n\nCome back tomorrow to vote again!")
    else
      match validate_vote_content text with
      | (false, error_msg) => (st1, error_msg.getD "")
      | (true, _) =>
        let mn := normalize_text text
        let count := spamGet st1.spamCache user_ref mn t
        if SPAM_MAX_IDENTICAL ≤ count then
          (st1, "⚠️ You've sent this message too many times.\n\nPlease wait a moment before trying again.")
        else
          let st2 := { st1 with spamCache := spamSet st1.spamCache user_ref mn (count + 1) t }
          match parse_vote_input text with
          | none =>
            (st2, "❌ Invalid format.\n\nPlease use: Artist - Song\nExample: Winky D - Ijipita")
          | some parsed =>
            let r := resolve_vote st2.songs st2.verifiedArtists st2.rawTallies today parsed
            match st2.rawVotes.find? (fun v =>
                v.channel == channel && v.user_ref == user_ref
                && v.match_key == r.2.2.2.2.1 && v.vote_date == today) with
            | some _ => (st2, "⚠️ You already voted for '" ++ r.2.2.2.2.2 ++ "' today!")
            | none =>
              let st3 := { st2 with
                rawVotes := st2.rawVotes ++ [⟨channel, user_ref, text, r.1, r.2.1,
                  r.2.2.1, r.2.2.2.1, r.2.2.2.2.1, r.2.2.2.2.2, today⟩],
                rawTallies := bumpTally st2.rawTallies today r.2.2.2.2.1 r.2.2.2.2.2 }
              let remaining := MAX_VOTES_PER_DAY - (todays_count + 1)
              if 0 < remaining then
                (st3, "✅ Vote recorded!\n\n🎵 " ++ r.2.2.2.2.2
                  ++ "\n\nYou have " ++ toString remaining ++ " vote"
                  ++ (if remaining ≠ 1 then "s" else "") ++ " remaining today.")
              else
                (st3, "✅ Vote recorded!\n\n🎵 " ++ r.2.2.2.2.2
                  ++ "\n\n🎉 You've used all your votes for today. Thanks for voting!")

/-- C6 witness state: the user already holds five RawVotes for day 0. -/
def c6st : VoteState :=
  { users := [("sms", "u1")],
    rawVotes :=
      [⟨"sms", "u1", "A - B1", "A", "B1", "a", "b1", "a::b1", "A - B1", 0⟩,
       ⟨"sms", "u1", "A - B2", "A", "B2", "a", "b2", "a::b2", "A - B2", 0⟩,
       ⟨"sms", "u1", "A - B3", "A", "B3", "a", "b3", "a::b3", "A - B3", 0⟩,
       ⟨"sms", "u1", "A - B4", "A", "B4", "a", "b4", "a::b4", "A - B4", 0⟩,
       ⟨"sms", "u1", "A - B5", "A", "B5", "a", "b5", "a::b5", "A - B5", 0⟩],
    rawTallies := [], spamCache := [], songs := [], verifiedArtists := [] }

/-- C7 scenario: the initial state. -/
def c7st0 : VoteState :=
  { users := [("sms", "u1")], rawVotes := [], rawTallies := [],
    spamCache := [], songs := [], verifiedArtists := [] }

/-- C7 scenario, step 1 (day 0, t = 86390): "Aa - Bb" is recorded. -/
def c7s1 : VoteState × String := handle_incoming_text c7st0 "sms" "u1" 86390 "Aa - Bb"

/-- Step 2 (day 0): the same text is rejected as already voted, but the
spam counter for it is incremented first. -/
def c7s2 : VoteState × String := handle_incoming_text c7s1.1 "sms" "u1" 86391 "Aa - Bb"

/-- Step 3 (day 0): again already voted; the spam counter reaches 3 with
expiry 86452. -/
def c7s3 : VoteState × String := handle_incoming_text c7s2.1 "sms" "u1" 86392 "Aa - Bb"

/-- Step 4 (day 1, t = 86405): "Aa-Bb" normalizes to a different spam key
but the same grouping key "aa::bb", and is recorded for day 1. -/
def c7s4 : VoteState × String := handle_incoming_text c7s3.1 "sms" "u1" 86405 "Aa-Bb"

/-- Step 5 (day 1, t = 86410): "Aa - Bb" again - a second vote of day 1
resolving to the grouping key already voted on day 1. -/
def c7s5 : VoteState × String := handle_incoming_text c7s4.1 "sms" "u1" 86410 "Aa - Bb"

/-- C7 witness state: one recorded day-0 vote with key aa::bb and its
tally; empty spam cache. -/
def c7wst : VoteState :=
  { users := [("sms", "u1")],
    rawVotes := [⟨"sms", "u1", "Aa - Bb", "Aa", "Bb", "aa", "bb", "aa::bb", "Aa - Bb", 0⟩],
    rawTallies := [⟨0, "aa::bb", "Aa - Bb", 1⟩],
    spamCache := [], songs := [], verifiedArtists := [] }

/-- Concrete database for the C2 witness: two verified songs with one
mapped grouping key and consistent tallies each (3 and 4 votes on date 0). -/
def c2db : CleanDB :=
  { songs := [⟨1, "Aa", "Bb", "Aa - Bb", "verified"⟩,
      ⟨2, "Cc", "Dd", "Cc - Dd", "verified"⟩],
    mappings := [⟨"aa::bb", 1, "Aa - Bb", 3, true⟩, ⟨"cc::dd", 2, "Cc - Dd", 4, true⟩],
    rawTallies := [⟨0, "aa::bb", "Aa - Bb", 3⟩, ⟨0, "cc::dd", "Cc - Dd", 4⟩],
    cleanedTallies := [⟨0, 1, 3⟩, ⟨0, 2, 4⟩],
    decisions := [],
    nextSongId := 3 }

/-- Concrete database for the C2 counterexample: pending song 1 holds a
mapped grouping key with 3 raw votes on date 0 but (being pending) no
CleanedSongTally row; verified song 2 has 4 consistent votes.  This is the
state the pipeline itself produces after filing a near-duplicate vote as a
new pending song, and the merge flow's own suggestion is to merge it into
the verified song. -/
def c2cdb : CleanDB :=
  { songs := [⟨1, "Aa", "Bb", "Aa - Bb", "pending"⟩,
      ⟨2, "Cc", "Dd", "Cc - Dd", "verified"⟩],
    mappings := [⟨"aa::bb", 1, "Aa - Bb", 3, false⟩, ⟨"cc::dd", 2, "Cc - Dd", 4, true⟩],
    rawTallies := [⟨0, "aa::bb", "Aa - Bb", 3⟩, ⟨0, "cc::dd", "Cc - Dd", 4⟩],
    cleanedTallies := [⟨0, 2, 4⟩],
    decisions := [],
    nextSongId := 3 }

/-- Concrete inputs for C5: a well-formed vote, one verified song, and a
malformed semantic response. -/
def c5db : CleanDB :=
  { songs := [], mappings := [], rawTallies := [⟨0, "aa::bb", "Aa - Bb", 1⟩],
    cleanedTallies := [], decisions := [], nextSongId := 0 }

/-- The raw tally processed in the C5 scenarios. -/
def c5tally : RawSongTally := ⟨0, "aa::bb", "Aa - Bb", 1⟩

/-- The verified-song list shown to the matcher in the C5 scenarios. -/
def c5songs : List VerifiedSongInfo := [⟨1, "Xx", "Yy", "Xx - Yy"⟩]

/-- Two verified songs used by the C1 witness: identical artist and title,
hence identical scores and a zero confidence gap. -/
def c1songA : CleanedSong := ⟨1, "Aa", "Bb", "Aa - Bb", "verified"⟩

/-- Second C1 witness song. -/
def c1songB : CleanedSong := ⟨2, "Aa", "Bb", "Aa - Bb (2)", "verified"⟩

/-! ### Supporting lemmas -/

theorem findRow_cons_pos (r : CleanedSongTally) (rest : List CleanedSongTally)
    (d sid : Nat) (h : (r.date == d && r.cleaned_song == sid) = true) :
    (r :: rest).find? (fun x => x.date == d && x.cleaned_song == sid) = some r :=
  List.find?_cons_of_pos _ h

theorem findRow_cons_neg (r : CleanedSongTally) (rest : List CleanedSongTally)
    (d sid : Nat) (h : ¬ (r.date == d && r.cleaned_song == sid) = true) :
    (r :: rest).find? (fun x => x.date == d && x.cleaned_song == sid)
      = rest.find? (fun x => x.date == d && x.cleaned_song == sid) :=
  List.find?_cons_of_neg _ (by simpa using h)

theorem upsertTallySet_firstRow (ct : List CleanedSongTally) (d sid : Nat) (c : Int) :
    FirstRowIs (upsertTallySet ct d sid c) d sid c := by
  induction ct with
  | nil => simp [upsertTallySet, FirstRowIs, List.find?]
  | cons r rest ih =>
    by_cases h : (r.date == d && r.cleaned_song == sid) = true
    · simp only [upsertTallySet, if_pos h, FirstRowIs]
      rw [findRow_cons_pos _ _ _ _ (by simpa using h)]
    · simp only [upsertTallySet, if_neg h, FirstRowIs]
      rw [findRow_cons_neg _ _ _ _ h]
      exact ih

theorem upsertTallySet_firstRow_other (ct : List CleanedSongTally) (d sid sid' : Nat)
    (c c' : Int) (hne : sid' ≠ sid) (h : FirstRowIs ct d sid c) :
    FirstRowIs (upsertTallySet ct d sid' c') d sid c := by
  induction ct with
  | nil => simp [FirstRowIs, List.find?] at h
  | cons r rest ih =>
    by_cases hr : (r.date == d && r.cleaned_song == sid') = true
    · simp only [upsertTallySet, if_pos hr]
      have hrs : r.cleaned_song = sid' := by
        simp only [Bool.and_eq_true, beq_iff_eq] at hr
        exact hr.2
      have hnot : ¬ (r.date == d && r.cleaned_song == sid) = true := by
        simp only [Bool.and_eq_true, beq_iff_eq]
        rintro ⟨-, h2⟩
        exact hne (hrs ▸ h2)
      unfold FirstRowIs at h ⊢
      rw [findRow_cons_neg { date := r.date, cleaned_song := r.cleaned_song, count := c' }
        rest d sid hnot]
      rw [findRow_cons_neg r rest d sid hnot] at h
      exact h
    · simp only [upsertTallySet, if_neg hr]
      by_cases hs : (r.date == d && r.cleaned_song == sid) = true
      · unfold FirstRowIs at h ⊢
        rw [findRow_cons_pos _ _ _ _ hs] at h
        rw [findRow_cons_pos _ _ _ _ hs]
        exact h
      · unfold FirstRowIs at h ⊢
        rw [findRow_cons_neg _ _ _ _ hs] at h
        rw [findRow_cons_neg _ _ _ _ hs]
        exact ih h

theorem upsertTallySet_fixed (ct : List CleanedSongTally) (d sid : Nat) (c : Int)
    (h : FirstRowIs ct d sid c) : upsertTallySet ct d sid c = ct := by
  induction ct with
  | nil => simp [FirstRowIs, List.find?] at h
  | cons r rest ih =>
    by_cases hr : (r.date == d && r.cleaned_song == sid) = true
    · unfold FirstRowIs at h
      rw [findRow_cons_pos _ _ _ _ hr] at h
      simp only [upsertTallySet, if_pos hr]
      congr 1
      cases r
      simp only at h
      simp [h]
    · unfold FirstRowIs at h
      rw [findRow_cons_neg _ _ _ _ hr] at h
      simp only [upsertTallySet, if_neg hr]
      rw [ih h]

/-- Applying the per-date upserts of counts whose keys avoid sid leaves the
first (d, sid) row unchanged. -/
theorem foldUpsert_firstRow_other (counts : List (Nat × Int)) (ct : List CleanedSongTally)
    (d sid : Nat) (c : Int) (hk : ∀ p ∈ counts, p.1 ≠ sid)
    (h : FirstRowIs ct d sid c) :
    FirstRowIs (counts.foldl (fun ct p => upsertTallySet ct d p.1 p.2) ct) d sid c := by
  induction counts generalizing ct with
  | nil => exact h
  | cons p rest ih =>
    rw [List.foldl_cons]
    exact ih _ (fun q hq => hk q (List.mem_cons_of_mem _ hq))
      (upsertTallySet_firstRow_other ct d sid p.1 c p.2 (hk p (by simp)) h)

/-- After one recompute pass over duplicate-free counts, every count is the
value of the first matching row. -/
theorem foldUpsert_sets (counts : List (Nat × Int)) (ct : List CleanedSongTally)
    (d : Nat) (hnd : (counts.map Prod.fst).Nodup) :
    ∀ p ∈ counts,
      FirstRowIs (counts.foldl (fun ct q => upsertTallySet ct d q.1 q.2) ct) d p.1 p.2 := by
  induction counts generalizing ct with
  | nil => intro p hp; cases hp
  | cons q rest ih =>
    intro p hp
    rw [List.foldl_cons]
    rw [List.map_cons, List.nodup_cons] at hnd
    rcases List.mem_cons.1 hp with rfl | hp
    · refine foldUpsert_firstRow_other rest _ d p.1 p.2 ?_
        (upsertTallySet_firstRow ct d p.1 p.2)
      intro q hq heq
      exact hnd.1 (heq ▸ List.mem_map_of_mem Prod.fst hq)
    · exact ih (upsertTallySet ct d q.1 q.2) hnd.2 p hp

/-- A recompute pass whose counts all match the first rows is the
identity. -/
theorem foldUpsert_fixed (counts : List (Nat × Int)) (ct : List CleanedSongTally) (d : Nat)
    (h : ∀ p ∈ counts, FirstRowIs ct d p.1 p.2) :
    counts.foldl (fun ct q => upsertTallySet ct d q.1 q.2) ct = ct := by
  induction counts with
  | nil => rfl
  | cons q rest ih =>
    rw [List.foldl_cons, upsertTallySet_fixed ct d q.1 q.2 (h q (by simp))]
    exact ih (fun p hp => h p (by simp [hp]))

theorem addCount_keys_mem (acc : List (Nat × Int)) (sid : Nat) (c : Int) (x : Nat)
    (hx : x ∈ (addCount acc sid c).map Prod.fst) :
    x ∈ acc.map Prod.fst ∨ x = sid := by
  induction acc with
  | nil =>
    simp only [addCount, List.map_cons, List.map_nil, List.mem_singleton] at hx
    exact Or.inr hx
  | cons p rest ih =>
    by_cases hp : (p.1 == sid) = true
    · simp only [addCount, if_pos hp, List.map_cons, List.mem_cons] at hx
      rcases hx with rfl | hx
      · exact Or.inl (by simp)
      · exact Or.inl (by simp [hx])
    · simp only [addCount, if_neg hp, List.map_cons, List.mem_cons] at hx
      rcases hx with rfl | hx
      · exact Or.inl (by simp)
      · rcases ih hx with hin | rfl
        · exact Or.inl (List.mem_cons_of_mem _ hin)
        · exact Or.inr rfl

theorem addCount_keys_nodup (acc : List (Nat × Int)) (sid : Nat) (c : Int)
    (h : (acc.map Prod.fst).Nodup) : ((addCount acc sid c).map Prod.fst).Nodup := by
  induction acc with
  | nil => simp [addCount]
  | cons p rest ih =>
    rw [List.map_cons, List.nodup_cons] at h
    by_cases hp : (p.1 == sid) = true
    · simp only [addCount, if_pos hp, List.map_cons]
      exact List.nodup_cons.2 ⟨h.1, h.2⟩
    · simp only [addCount, if_neg hp, List.map_cons]
      refine List.nodup_cons.2 ⟨?_, ih h.2⟩
      intro hmem
      rcases addCount_keys_mem rest sid c p.1 hmem with hin | heq
      · exact h.1 hin
      · exact hp (by simp [heq])

theorem songCounts_keys_nodup (db : CleanDB) (date : Nat) :
    ((songCounts db date).map Prod.fst).Nodup := by
  unfold songCounts
  generalize (db.rawTallies.filter (fun t => t.date == date)) = ts
  have : ∀ (acc : List (Nat × Int)), (acc.map Prod.fst).Nodup →
      ((ts.foldl (fun acc t =>
        match mappingLookup db.songs db.mappings t.match_key with
        | some s => addCount acc s.id t.count
        | none => acc) acc).map Prod.fst).Nodup := by
    induction ts with
    | nil => intro acc h; exact h
    | cons t rest ih =>
      intro acc h
      rw [List.foldl_cons]
      cases mappingLookup db.songs db.mappings t.match_key with
      | none => exact ih acc h
      | some s => exact ih _ (addCount_keys_nodup acc s.id t.count h)
  exact this [] (by simp)

/-! ### Lemmas about merge_songs (claim C2) -/

theorem songById_some_id (songs : List CleanedSong) (x : Nat) (s : CleanedSong)
    (h : songById songs x = some s) : s.id = x := by
  have := List.find?_some h
  simpa using this

theorem findSong_cons_pos (s : CleanedSong) (rest : List CleanedSong) (x : Nat)
    (h : (s.id == x) = true) :
    (s :: rest).find? (fun q => q.id == x) = some s :=
  List.find?_cons_of_pos _ h

theorem findSong_cons_neg (s : CleanedSong) (rest : List CleanedSong) (x : Nat)
    (h : ¬ (s.id == x) = true) :
    (s :: rest).find? (fun q => q.id == x) = rest.find? (fun q => q.id == x) :=
  List.find?_cons_of_neg _ (by simpa using h)

theorem songById_filter_ne (songs : List CleanedSong) (a x : Nat) (h : x ≠ a) :
    songById (songs.filter (fun s => !(s.id == a))) x = songById songs x := by
  induction songs with
  | nil => rfl
  | cons s rest ih =>
    unfold songById
    by_cases hsa : (s.id == a) = true
    · rw [List.filter_cons_of_neg (by simp [hsa])]
      rw [List.find?_cons_of_neg]
      · exact ih
      · simp only [beq_iff_eq] at hsa ⊢
        intro hx
        exact h (hx ▸ hsa)
    · rw [List.filter_cons_of_pos (by simp [hsa])]
      by_cases hsx : (s.id == x) = true
      · rw [findSong_cons_pos _ _ _ hsx, findSong_cons_pos _ _ _ hsx]
      · rw [findSong_cons_neg _ _ _ hsx, findSong_cons_neg _ _ _ hsx]
        exact ih

theorem songById_filter_self (songs : List CleanedSong) (a : Nat) :
    songById (songs.filter (fun s => !(s.id == a))) a = none := by
  unfold songById
  apply List.find?_eq_none.2
  intro s hs
  have hf := List.of_mem_filter hs
  simp only [Bool.not_eq_true'] at hf
  simp [hf]

/-- Reassigning the mappings of the deleted source song: after the merge, a
key resolves to the merge target exactly when it resolved to the source or
the target before. -/
theorem mappingLookup_merge (songs : List CleanedSong) (mappings : List MatchKeyMapping)
    (a b : Nat) (sa sb : CleanedSong) (hab : a ≠ b)
    (ha : songById songs a = some sa) (hsa : sa.status = "verified")
    (hb : songById songs b = some sb) (hsb : sb.status = "verified") (key : String) :
    mappingLookup (songs.filter (fun s => !(s.id == a)))
      (mappings.map (fun m =>
        if m.cleaned_song == a then { m with cleaned_song := b } else m)) key
      = match mappingLookup songs mappings key with
        | some s => some (if s.id = a then sb else s)
        | none => none := by
  induction mappings with
  | nil => rfl
  | cons m rest ih =>
    simp only [List.map_cons, mappingLookup]
    rw [ih]
    cases hrec : mappingLookup songs rest key with
    | some s => rfl
    | none =>
      simp only []
      by_cases hma : (m.cleaned_song == a) = true
      · rw [if_pos hma]
        by_cases hk : (m.match_key == key) = true
        · simp only [if_pos hk]
          have hmb : songById (songs.filter (fun s => !(s.id == a))) b
              = some sb := by
            rw [songById_filter_ne songs a b (Ne.symm hab)]
            exact hb
          simp only [hmb, hsb]
          have hca : m.cleaned_song = a := by simpa using hma
          simp only [hca, ha, hsa]
          have hsaid : sa.id = a := songById_some_id songs a sa ha
          simp [hsaid]
        · simp only [if_neg hk]
      · rw [if_neg hma]
        by_cases hk : (m.match_key == key) = true
        · simp only [if_pos hk]
          have hcne : m.cleaned_song ≠ a := by simpa using hma
          rw [songById_filter_ne songs a m.cleaned_song hcne]
          cases hby : songById songs m.cleaned_song with
          | none => rfl
          | some s =>
            have hsid : s.id ≠ a := by
              rw [songById_some_id songs m.cleaned_song s hby]
              exact hcne
            by_cases hv : (s.status == "verified") = true
            · simp [hv, hsid]
            · simp [hv]
        · simp only [if_neg hk]

/-- The on-delete cascade filter after the merge is a no-op: no mapping
points at the source any more. -/
theorem filter_reassigned_mappings (mappings : List MatchKeyMapping) (a b : Nat)
    (hab : a ≠ b) :
    (mappings.map (fun m =>
      if m.cleaned_song == a then { m with cleaned_song := b } else m)).filter
        (fun m => !(m.cleaned_song == a))
    = mappings.map (fun m =>
        if m.cleaned_song == a then { m with cleaned_song := b } else m) := by
  apply List.filter_eq_self.2
  intro m hm
  rcases List.mem_map.1 hm with ⟨m0, -, rfl⟩
  by_cases h : (m0.cleaned_song == a) = true
  · simp [h, Ne.symm hab]
  · simp [h]

theorem list_sum_map_add {α : Type} (l : List α) (f g : α → Int) :
    (l.map (fun t => f t + g t)).sum = (l.map f).sum + (l.map g).sum := by
  induction l with
  | nil => simp
  | cons t rest ih =>
    simp only [List.map_cons, List.sum_cons, ih]
    ring

/-! ### Counting lemmas for the tally table -/

theorem filterRow_cons_pos (r : CleanedSongTally) (rest : List CleanedSongTally)
    (d b : Nat) (h : (r.date == d && r.cleaned_song == b) = true) :
    (r :: rest).filter (fun x => x.date == d && x.cleaned_song == b)
      = r :: rest.filter (fun x => x.date == d && x.cleaned_song == b) :=
  List.filter_cons_of_pos h

theorem filterRow_cons_neg (r : CleanedSongTally) (rest : List CleanedSongTally)
    (d b : Nat) (h : ¬ (r.date == d && r.cleaned_song == b) = true) :
    (r :: rest).filter (fun x => x.date == d && x.cleaned_song == b)
      = rest.filter (fun x => x.date == d && x.cleaned_song == b) :=
  List.filter_cons_of_neg (by simpa using h)

theorem tallySum_cons (r : CleanedSongTally) (rest : List CleanedSongTally) (d b : Nat) :
    tallySum (r :: rest) d b
      = (if (r.date == d && r.cleaned_song == b) = true then r.count else 0)
        + tallySum rest d b := by
  by_cases h : (r.date == d && r.cleaned_song == b) = true
  · unfold tallySum
    rw [filterRow_cons_pos r rest d b h, List.map_cons, List.sum_cons, if_pos h]
  · unfold tallySum
    rw [filterRow_cons_neg r rest d b h, if_neg h, zero_add]

theorem tallySum_zero (l : List CleanedSongTally) (d b : Nat)
    (h : ∀ x ∈ l, ¬(x.date = d ∧ x.cleaned_song = b)) : tallySum l d b = 0 := by
  induction l with
  | nil => rfl
  | cons r rest ih =>
    rw [tallySum_cons]
    have hr : ¬ (r.date == d && r.cleaned_song == b) = true := by
      simpa using h r (by simp)
    rw [if_neg hr, ih (fun x hx => h x (by simp [hx]))]
    simp

theorem upsertTallySet_tallySum_other (ct : List CleanedSongTally) (d sid b : Nat)
    (c : Int) (hne : sid ≠ b) :
    tallySum (upsertTallySet ct d sid c) d b = tallySum ct d b := by
  induction ct with
  | nil =>
    show tallySum [⟨d, sid, c⟩] d b = tallySum [] d b
    rw [tallySum_cons]
    simp [hne, tallySum]
  | cons r rest ih =>
    by_cases h : (r.date == d && r.cleaned_song == sid) = true
    · simp only [upsertTallySet, if_pos h]
      rw [tallySum_cons, tallySum_cons]
      have hrb : ¬ (r.date == d && r.cleaned_song == b) = true := by
        simp only [Bool.and_eq_true, beq_iff_eq] at h ⊢
        rintro ⟨-, h2⟩
        exact hne (h.2 ▸ h2)
      simp only [hrb, if_neg]
      rfl
    · simp only [upsertTallySet, if_neg h]
      rw [tallySum_cons, tallySum_cons, ih]

theorem upsertTallySet_tallySum_self (ct : List CleanedSongTally) (d b : Nat) (c : Int)
    (hwf : TalliesWF ct) : tallySum (upsertTallySet ct d b c) d b = c := by
  induction ct with
  | nil =>
    show tallySum [⟨d, b, c⟩] d b = c
    rw [tallySum_cons]
    simp [tallySum]
  | cons r rest ih =>
    have hwf2 : TalliesWF rest := (List.pairwise_cons.1 hwf).2
    by_cases h : (r.date == d && r.cleaned_song == b) = true
    · simp only [upsertTallySet, if_pos h]
      rw [tallySum_cons]
      simp only [Bool.and_eq_true, beq_iff_eq] at h
      have hzero : tallySum rest d b = 0 := by
        apply tallySum_zero
        intro x hx hkey
        exact (List.pairwise_cons.1 hwf).1 x hx ⟨h.1.trans hkey.1.symm, h.2.trans hkey.2.symm⟩
      rw [hzero]
      simp [h.1, h.2]
    · simp only [upsertTallySet, if_neg h]
      rw [tallySum_cons, if_neg h, ih hwf2]
      simp

theorem foldSet_tallySum_other (counts : List (Nat × Int)) (ct : List CleanedSongTally)
    (d b : Nat) (hk : ∀ p ∈ counts, p.1 ≠ b) :
    tallySum (counts.foldl (fun ct q => upsertTallySet ct d q.1 q.2) ct) d b
      = tallySum ct d b := by
  induction counts generalizing ct with
  | nil => rfl
  | cons q rest ih =>
    rw [List.foldl_cons, ih _ (fun p hp => hk p (List.mem_cons_of_mem _ hp)),
      upsertTallySet_tallySum_other ct d q.1 b q.2 (hk q (by simp))]

theorem upsertTallySet_mem (x : CleanedSongTally) (ct : List CleanedSongTally)
    (d sid : Nat) (c : Int) (hx : x ∈ upsertTallySet ct d sid c) :
    x ∈ ct ∨ (x.date = d ∧ x.cleaned_song = sid) := by
  induction ct with
  | nil =>
    simp only [upsertTallySet, List.mem_singleton] at hx
    subst hx
    exact Or.inr ⟨rfl, rfl⟩
  | cons r rest ih =>
    by_cases h : (r.date == d && r.cleaned_song == sid) = true
    · simp only [upsertTallySet, if_pos h, List.mem_cons] at hx
      rcases hx with rfl | hx
      · simp only [Bool.and_eq_true, beq_iff_eq] at h
        exact Or.inr ⟨h.1, h.2⟩
      · exact Or.inl (List.mem_cons_of_mem _ hx)
    · simp only [upsertTallySet, if_neg h, List.mem_cons] at hx
      rcases hx with rfl | hx
      · exact Or.inl (by simp)
      · rcases ih hx with hin | hkey
        · exact Or.inl (List.mem_cons_of_mem _ hin)
        · exact Or.inr hkey

theorem upsertTallySet_WF (ct : List CleanedSongTally) (d sid : Nat) (c : Int)
    (hwf : TalliesWF ct) : TalliesWF (upsertTallySet ct d sid c) := by
  induction ct with
  | nil => simp [upsertTallySet, TalliesWF]
  | cons r rest ih =>
    rcases List.pairwise_cons.1 hwf with ⟨hhead, htail⟩
    by_cases h : (r.date == d && r.cleaned_song == sid) = true
    · simp only [upsertTallySet, if_pos h]
      exact List.pairwise_cons.2 ⟨fun x hx => hhead x hx, htail⟩
    · simp only [upsertTallySet, if_neg h]
      refine List.pairwise_cons.2 ⟨?_, ih htail⟩
      intro x hx
      rcases upsertTallySet_mem x rest d sid c hx with hin | hkey
      · exact hhead x hin
      · rintro ⟨h1, h2⟩
        simp only [Bool.and_eq_true, beq_iff_eq] at h
        exact h ⟨h1.trans hkey.1, h2.trans hkey.2⟩

theorem foldSet_tallySum (counts : List (Nat × Int)) (ct : List CleanedSongTally)
    (d b : Nat) (hnd : (counts.map Prod.fst).Nodup) (hwf : TalliesWF ct) :
    tallySum (counts.foldl (fun ct q => upsertTallySet ct d q.1 q.2) ct) d b
      = match assocGet counts b with
        | some v => v
        | none => tallySum ct d b := by
  induction counts generalizing ct with
  | nil => rfl
  | cons q rest ih =>
    rw [List.map_cons, List.nodup_cons] at hnd
    rw [List.foldl_cons]
    by_cases hq : q.1 = b
    · have hget : assocGet (q :: rest) b = some q.2 := by
        unfold assocGet
        rw [List.find?_cons_of_pos _ (by simp [hq])]
        rfl
      rw [hget]
      have hrest : ∀ p ∈ rest, p.1 ≠ b := by
        intro p hp heq
        exact hnd.1 (hq ▸ heq ▸ List.mem_map_of_mem Prod.fst hp)
      rw [foldSet_tallySum_other rest _ d b hrest, hq]
      exact upsertTallySet_tallySum_self ct d b q.2 hwf
    · have hget : assocGet (q :: rest) b = assocGet rest b := by
        unfold assocGet
        rw [List.find?_cons_of_neg _ (by simp [hq])]
      rw [hget]
      rw [ih _ hnd.2 (upsertTallySet_WF ct d q.1 q.2 hwf)]
      cases assocGet rest b with
      | some v => rfl
      | none =>
        simp only []
        exact upsertTallySet_tallySum_other ct d q.1 b q.2 hq

theorem assocGet_nil (b : Nat) : assocGet [] b = none := rfl

theorem findPair_cons_pos (p : Nat × Int) (rest : List (Nat × Int)) (sid : Nat)
    (h : (p.1 == sid) = true) :
    (p :: rest).find? (fun q => q.1 == sid) = some p :=
  List.find?_cons_of_pos _ h

theorem findPair_cons_neg (p : Nat × Int) (rest : List (Nat × Int)) (sid : Nat)
    (h : ¬ (p.1 == sid) = true) :
    (p :: rest).find? (fun q => q.1 == sid) = rest.find? (fun q => q.1 == sid) :=
  List.find?_cons_of_neg _ (by simpa using h)

theorem assocGet_addCount_self (acc : List (Nat × Int)) (sid : Nat) (c : Int) :
    assocGet (addCount acc sid c) sid = some ((assocGet acc sid).getD 0 + c) := by
  induction acc with
  | nil =>
    unfold addCount assocGet
    rw [findPair_cons_pos (sid, c) [] sid (by simp)]
    simp
  | cons p rest ih =>
    by_cases hp : (p.1 == sid) = true
    · simp only [addCount, if_pos hp]
      unfold assocGet
      rw [findPair_cons_pos (p.1, p.2 + c) rest sid hp, findPair_cons_pos p rest sid hp]
      rfl
    · simp only [addCount, if_neg hp]
      unfold assocGet at ih ⊢
      rw [findPair_cons_neg p (addCount rest sid c) sid hp, findPair_cons_neg p rest sid hp]
      exact ih

theorem assocGet_addCount_other (acc : List (Nat × Int)) (sid sid2 : Nat) (c : Int)
    (hne : sid ≠ sid2) :
    assocGet (addCount acc sid2 c) sid = assocGet acc sid := by
  induction acc with
  | nil =>
    unfold addCount assocGet
    rw [findPair_cons_neg (sid2, c) [] sid (by simp [Ne.symm hne])]
  | cons p rest ih =>
    by_cases hp : (p.1 == sid2) = true
    · simp only [addCount, if_pos hp]
      have hps : ¬ (p.1 == sid) = true := by
        simp only [beq_iff_eq] at hp ⊢
        rw [hp]
        exact Ne.symm hne
      unfold assocGet
      rw [findPair_cons_neg (p.1, p.2 + c) rest sid hps, findPair_cons_neg p rest sid hps]
    · simp only [addCount, if_neg hp]
      by_cases hps : (p.1 == sid) = true
      · unfold assocGet
        rw [findPair_cons_pos p (addCount rest sid2 c) sid hps,
          findPair_cons_pos p rest sid hps]
      · unfold assocGet at ih ⊢
        rw [findPair_cons_neg p (addCount rest sid2 c) sid hps,
          findPair_cons_neg p rest sid hps]
        exact ih

/-- Running the song_counts accumulation over a tally list: the entry of
song b ends up holding its initial value plus the summed contributions of
the tallies whose key resolves to b, and exists exactly when it existed
before or some tally resolves to b. -/
theorem accum_assocGet (songs : List CleanedSong) (mappings : List MatchKeyMapping)
    (b : Nat) (ts : List RawSongTally) :
    ∀ acc : List (Nat × Int),
      assocGet (ts.foldl (fun acc t =>
        match mappingLookup songs mappings t.match_key with
        | some s => addCount acc s.id t.count
        | none => acc) acc) b
      = match assocGet acc b with
        | some v => some (v + (ts.map (fun t =>
            match mappingLookup songs mappings t.match_key with
            | some s => if s.id = b then t.count else 0
            | none => 0)).sum)
        | none =>
          if ts.any (fun t =>
              match mappingLookup songs mappings t.match_key with
              | some s => s.id == b
              | none => false)
          then some ((ts.map (fun t =>
            match mappingLookup songs mappings t.match_key with
            | some s => if s.id = b then t.count else 0
            | none => 0)).sum)
          else none := by
  induction ts with
  | nil =>
    intro acc
    simp only [List.foldl_nil, List.map_nil, List.sum_nil, List.any_nil]
    cases hacc : assocGet acc b with
    | some v => simp
    | none => simp
  | cons t rest ih =>
    intro acc
    rw [List.foldl_cons, List.map_cons, List.sum_cons, List.any_cons]
    cases hlk : mappingLookup songs mappings t.match_key with
    | none =>
      simp only []
      rw [ih acc]
      cases hacc : assocGet acc b with
      | some v => simp
      | none => simp
    | some s =>
      simp only []
      by_cases hsb : s.id = b
      · simp only [if_pos hsb]
        rw [ih (addCount acc s.id t.count), hsb, assocGet_addCount_self acc b t.count]
        cases hacc : assocGet acc b with
        | some v =>
          simp only [Option.getD_some]
          rw [add_assoc]
        | none =>
          simp only [Option.getD_none]
          have hbeq : (s.id == b) = true := by simp [hsb]
          simp [hbeq, zero_add]
      · simp only [if_neg hsb]
        rw [ih (addCount acc s.id t.count),
          assocGet_addCount_other acc b s.id t.count (fun h => hsb h.symm)]
        have hbeq : (s.id == b) = false := by simp [hsb]
        cases hacc : assocGet acc b with
        | some v => simp [hbeq, zero_add]
        | none => simp [hbeq, zero_add]

/-- assocGet over song_counts: present exactly when some raw tally of the
date resolves to the song, and then equal to the derived count. -/
theorem songCounts_assocGet (db : CleanDB) (date b : Nat) :
    assocGet (songCounts db date) b
      = if (db.rawTallies.filter (fun t => t.date == date)).any (fun t =>
            match mappingLookup db.songs db.mappings t.match_key with
            | some s => s.id == b
            | none => false)
        then some (derivedCount db date b) else none := by
  unfold songCounts derivedCount
  rw [accum_assocGet db.songs db.mappings b _ [], assocGet_nil]

theorem filterDate_cons_pos (t : CleanedSongTally) (rest : List CleanedSongTally)
    (d : Nat) (h : (t.date == d) = true) :
    (t :: rest).filter (fun x => x.date == d) = t :: rest.filter (fun x => x.date == d) :=
  List.filter_cons_of_pos h

theorem filterDate_cons_neg (t : CleanedSongTally) (rest : List CleanedSongTally)
    (d : Nat) (h : ¬ (t.date == d) = true) :
    (t :: rest).filter (fun x => x.date == d) = rest.filter (fun x => x.date == d) :=
  List.filter_cons_of_neg (by simpa using h)

theorem filterSong_cons_pos (r : CleanedSongTally) (rest : List CleanedSongTally)
    (a : Nat) (h : (r.cleaned_song == a) = true) :
    (r :: rest).filter (fun x => x.cleaned_song == a)
      = r :: rest.filter (fun x => x.cleaned_song == a) :=
  List.filter_cons_of_pos h

theorem filterSong_cons_neg (r : CleanedSongTally) (rest : List CleanedSongTally)
    (a : Nat) (h : ¬ (r.cleaned_song == a) = true) :
    (r :: rest).filter (fun x => x.cleaned_song == a)
      = rest.filter (fun x => x.cleaned_song == a) :=
  List.filter_cons_of_neg (by simpa using h)

theorem filterNotSong_cons_pos (r : CleanedSongTally) (rest : List CleanedSongTally)
    (a : Nat) (h : ¬ (r.cleaned_song == a) = true) :
    (r :: rest).filter (fun x => !(x.cleaned_song == a))
      = r :: rest.filter (fun x => !(x.cleaned_song == a)) :=
  List.filter_cons_of_pos (by simpa using h)

theorem filterNotSong_cons_neg (r : CleanedSongTally) (rest : List CleanedSongTally)
    (a : Nat) (h : (r.cleaned_song == a) = true) :
    (r :: rest).filter (fun x => !(x.cleaned_song == a))
      = rest.filter (fun x => !(x.cleaned_song == a)) :=
  List.filter_cons_of_neg (by simpa using h)

/-! ### Lemmas about the merge fold over the source tallies -/

theorem upsertTallyAdd_tallySum_same (ct : List CleanedSongTally) (d b : Nat) (c : Int) :
    tallySum (upsertTallyAdd ct d b c) d b = tallySum ct d b + c := by
  induction ct with
  | nil =>
    show tallySum [⟨d, b, c⟩] d b = tallySum [] d b + c
    rw [tallySum_cons]
    simp [tallySum]
  | cons r rest ih =>
    by_cases h : (r.date == d && r.cleaned_song == b) = true
    · simp only [upsertTallyAdd, if_pos h]
      rw [tallySum_cons, tallySum_cons, if_pos h, if_pos h]
      show r.count + c + tallySum rest d b = r.count + tallySum rest d b + c
      ring
    · simp only [upsertTallyAdd, if_neg h]
      rw [tallySum_cons, tallySum_cons, if_neg h, ih]
      ring

theorem upsertTallyAdd_tallySum_other (ct : List CleanedSongTally) (d2 sid2 d b : Nat)
    (c : Int) (hne : ¬(d2 = d ∧ sid2 = b)) :
    tallySum (upsertTallyAdd ct d2 sid2 c) d b = tallySum ct d b := by
  induction ct with
  | nil =>
    show tallySum [⟨d2, sid2, c⟩] d b = tallySum [] d b
    rw [tallySum_cons]
    have : ¬ (((d2 : Nat) == d) && ((sid2 : Nat) == b)) = true := by simpa using hne
    rw [if_neg this]
    simp
  | cons r rest ih =>
    by_cases h : (r.date == d2 && r.cleaned_song == sid2) = true
    · simp only [upsertTallyAdd, if_pos h]
      have hkey : ¬ (r.date == d && r.cleaned_song == b) = true := by
        simp only [Bool.and_eq_true, beq_iff_eq] at h ⊢
        rintro ⟨h1, h2⟩
        exact hne ⟨h.1 ▸ h1, h.2 ▸ h2⟩
      rw [tallySum_cons, tallySum_cons, if_neg hkey, if_neg hkey]
    · simp only [upsertTallyAdd, if_neg h]
      rw [tallySum_cons, tallySum_cons, ih]

theorem eraseP_tallySum_other (ct : List CleanedSongTally) (d2 a d b : Nat)
    (hab : a ≠ b) :
    tallySum (ct.eraseP (fun r => r.date == d2 && r.cleaned_song == a)) d b
      = tallySum ct d b := by
  induction ct with
  | nil => rfl
  | cons r rest ih =>
    by_cases h : (r.date == d2 && r.cleaned_song == a) = true
    · rw [List.eraseP_cons_of_pos (by simpa using h), tallySum_cons]
      have hkey : ¬ (r.date == d && r.cleaned_song == b) = true := by
        simp only [Bool.and_eq_true, beq_iff_eq] at h ⊢
        rintro ⟨-, h2⟩
        exact hab (h.2.symm.trans h2)
      rw [if_neg hkey]
      simp
    · rw [List.eraseP_cons_of_neg (by simpa using h), tallySum_cons, tallySum_cons, ih]

/-- The per-date count for the target after folding the source rows into
it: the old target count plus the source rows of that date. -/
theorem mergeFold_tallySum (S : List CleanedSongTally) (ct : List CleanedSongTally)
    (a b d : Nat) (hab : a ≠ b) :
    tallySum (S.foldl (fun ct t =>
        (upsertTallyAdd ct t.date b t.count).eraseP
          (fun r => r.date == t.date && r.cleaned_song == a)) ct) d b
      = tallySum ct d b
        + ((S.filter (fun t => t.date == d)).map (fun t => t.count)).sum := by
  induction S generalizing ct with
  | nil => simp
  | cons t rest ih =>
    rw [List.foldl_cons, ih]
    by_cases hd : (t.date == d) = true
    · rw [filterDate_cons_pos t rest d hd, List.map_cons, List.sum_cons]
      rw [eraseP_tallySum_other _ t.date a d b hab]
      have hdd : t.date = d := by simpa using hd
      rw [hdd, upsertTallyAdd_tallySum_same ct d b t.count]
      ring
    · rw [filterDate_cons_neg t rest d hd]
      rw [eraseP_tallySum_other _ t.date a d b hab]
      rw [upsertTallyAdd_tallySum_other ct t.date b d b t.count
        (by rintro ⟨h1, -⟩; exact hd (by simp [h1]))]

theorem filter_src_tallySum (ct : List CleanedSongTally) (a d b : Nat) (hab : a ≠ b) :
    tallySum (ct.filter (fun r => !(r.cleaned_song == a))) d b = tallySum ct d b := by
  induction ct with
  | nil => rfl
  | cons r rest ih =>
    by_cases h : (r.cleaned_song == a) = true
    · rw [filterNotSong_cons_neg r rest a h, tallySum_cons]
      have hkey : ¬ (r.date == d && r.cleaned_song == b) = true := by
        simp only [Bool.and_eq_true, beq_iff_eq] at h ⊢
        rintro ⟨-, h2⟩
        exact hab (h ▸ h2)
      rw [if_neg hkey]
      simp [ih]
    · rw [filterNotSong_cons_pos r rest a h, tallySum_cons, tallySum_cons, ih]

/-- The summed counts of the source rows of one date are the source's
tally count. -/
theorem srcRows_sum (ct : List CleanedSongTally) (a d : Nat) :
    (((ct.filter (fun r => r.cleaned_song == a)).filter
        (fun t => t.date == d)).map (fun t => t.count)).sum = tallySum ct d a := by
  induction ct with
  | nil => rfl
  | cons r rest ih =>
    rw [tallySum_cons]
    by_cases h : (r.cleaned_song == a) = true
    · rw [filterSong_cons_pos r rest a h]
      by_cases hd : (r.date == d) = true
      · rw [filterDate_cons_pos r _ d hd, List.map_cons, List.sum_cons, ih,
          if_pos (by simp only [Bool.and_eq_true]; exact ⟨hd, h⟩)]
      · rw [filterDate_cons_neg r _ d hd, ih,
          if_neg (by simp only [Bool.and_eq_true]; rintro ⟨h1, -⟩; exact hd h1)]
        simp
    · rw [filterSong_cons_neg r rest a h, ih,
        if_neg (by simp only [Bool.and_eq_true]; rintro ⟨-, h2⟩; exact h h2)]
      simp

/-! ### Well-formedness preservation -/

theorem upsertTallyAdd_mem (x : CleanedSongTally) (ct : List CleanedSongTally)
    (d sid : Nat) (c : Int) (hx : x ∈ upsertTallyAdd ct d sid c) :
    x ∈ ct ∨ (x.date = d ∧ x.cleaned_song = sid) := by
  induction ct with
  | nil =>
    simp only [upsertTallyAdd, List.mem_singleton] at hx
    subst hx
    exact Or.inr ⟨rfl, rfl⟩
  | cons r rest ih =>
    by_cases h : (r.date == d && r.cleaned_song == sid) = true
    · simp only [upsertTallyAdd, if_pos h, List.mem_cons] at hx
      rcases hx with rfl | hx
      · simp only [Bool.and_eq_true, beq_iff_eq] at h
        exact Or.inr ⟨h.1, h.2⟩
      · exact Or.inl (List.mem_cons_of_mem _ hx)
    · simp only [upsertTallyAdd, if_neg h, List.mem_cons] at hx
      rcases hx with rfl | hx
      · exact Or.inl (by simp)
      · rcases ih hx with hin | hkey
        · exact Or.inl (List.mem_cons_of_mem _ hin)
        · exact Or.inr hkey

theorem upsertTallyAdd_WF (ct : List CleanedSongTally) (d sid : Nat) (c : Int)
    (hwf : TalliesWF ct) : TalliesWF (upsertTallyAdd ct d sid c) := by
  induction ct with
  | nil => simp [upsertTallyAdd, TalliesWF]
  | cons r rest ih =>
    rcases List.pairwise_cons.1 hwf with ⟨hhead, htail⟩
    by_cases h : (r.date == d && r.cleaned_song == sid) = true
    · simp only [upsertTallyAdd, if_pos h]
      exact List.pairwise_cons.2 ⟨fun x hx => hhead x hx, htail⟩
    · simp only [upsertTallyAdd, if_neg h]
      refine List.pairwise_cons.2 ⟨?_, ih htail⟩
      intro x hx
      rcases upsertTallyAdd_mem x rest d sid c hx with hin | hkey
      · exact hhead x hin
      · rintro ⟨h1, h2⟩
        simp only [Bool.and_eq_true, beq_iff_eq] at h
        exact h ⟨h1.trans hkey.1, h2.trans hkey.2⟩

theorem mergeFold_WF (S : List CleanedSongTally) (ct : List CleanedSongTally)
    (a b : Nat) (hwf : TalliesWF ct) :
    TalliesWF (S.foldl (fun ct t =>
      (upsertTallyAdd ct t.date b t.count).eraseP
        (fun r => r.date == t.date && r.cleaned_song == a)) ct) := by
  induction S generalizing ct with
  | nil => exact hwf
  | cons t rest ih =>
    rw [List.foldl_cons]
    exact ih _ (List.Pairwise.sublist (List.eraseP_sublist _)
      (upsertTallyAdd_WF ct t.date b t.count hwf))

theorem filter_WF (ct : List CleanedSongTally) (p : CleanedSongTally → Bool)
    (hwf : TalliesWF ct) : TalliesWF (ct.filter p) :=
  List.Pairwise.sublist (List.filter_sublist ct) hwf

/-- Evaluating merge_songs when both songs exist. -/
theorem merge_songs_eq (db : CleanDB) (a b : Nat) (sa sb : CleanedSong)
    (ha : songById db.songs a = some sa) (hb : songById db.songs b = some sb) :
    merge_songs db a b =
      ({ db with
          songs := db.songs.filter (fun s => !(s.id == a)),
          mappings := (db.mappings.map (fun m =>
              if m.cleaned_song == a then { m with cleaned_song := b } else m)).filter
            (fun m => !(m.cleaned_song == a)),
          cleanedTallies := ((db.cleanedTallies.filter
              (fun r => r.cleaned_song == a)).foldl
              (fun ct t => (upsertTallyAdd ct t.date b t.count).eraseP
                (fun r => r.date == t.date && r.cleaned_song == a))
              db.cleanedTallies).filter
            (fun r => !(r.cleaned_song == a)) }, true) := by
  unfold merge_songs
  rw [ha, hb]

/-- After the merge, the derived count of the target is the sum of the
derived counts of source and target before the merge. -/
theorem derivedCount_merge (db : CleanDB) (a b : Nat) (sa sb : CleanedSong) (date : Nat)
    (hab : a ≠ b)
    (ha : songById db.songs a = some sa) (hsa : sa.status = "verified")
    (hb : songById db.songs b = some sb) (hsb : sb.status = "verified") :
    derivedCount (merge_songs db a b).1 date b
      = derivedCount db date a + derivedCount db date b := by
  rw [merge_songs_eq db a b sa sb ha hb]
  unfold derivedCount
  dsimp only
  rw [filter_reassigned_mappings db.mappings a b hab]
  rw [← list_sum_map_add]
  congr 1
  apply List.map_congr_left
  intro t ht
  rw [mappingLookup_merge db.songs db.mappings a b sa sb hab ha hsa hb hsb t.match_key]
  cases hrec : mappingLookup db.songs db.mappings t.match_key with
  | none => simp
  | some s =>
    dsimp only
    by_cases hsid : s.id = a
    · have hsbid : sb.id = b := songById_some_id db.songs b sb hb
      have hsnb : s.id ≠ b := by
        rw [hsid]
        exact hab
      simp [hsid, hsbid, hsnb, hab]
    · simp [hsid]

/-! ### Claim theorem C2 -/

/-- C2 (amended): for two distinct VERIFIED canonical songs whose per-date
CleanedSongTally counts are consistent with the raw tallies, merge_songs
followed by the per-date recompute leaves the target with the pre-merge
sum of both counts, and the source song no longer exists.  The verified
hypotheses are necessary: the unrestricted claim fails on a pending
source, see the counterexample below. -/
theorem c2_merge_then_recompute (db : CleanDB) (a b date : Nat) (sa sb : CleanedSong)
    (hab : a ≠ b)
    (ha : songById db.songs a = some sa) (hsa : sa.status = "verified")
    (hb : songById db.songs b = some sb) (hsb : sb.status = "verified")
    (hwf : TalliesWF db.cleanedTallies)
    (hconsA : cleanedCount db date a = derivedCount db date a)
    (hconsB : cleanedCount db date b = derivedCount db date b) :
    cleanedCount (update_cleaned_tallies (merge_songs db a b).1 date) date b
      = cleanedCount db date a + cleanedCount db date b
    ∧ songById (update_cleaned_tallies (merge_songs db a b).1 date).songs a = none := by
  have hder := derivedCount_merge db a b sa sb date hab ha hsa hb hsb
  rw [merge_songs_eq db a b sa sb ha hb] at hder ⊢
  dsimp only at hder ⊢
  constructor
  · unfold update_cleaned_tallies cleanedCount
    dsimp only
    rw [foldSet_tallySum _ _ date b (songCounts_keys_nodup _ date)
      (filter_WF _ _ (mergeFold_WF _ db.cleanedTallies a b hwf))]
    rw [songCounts_assocGet _ date b]
    split_ifs with hany
    · dsimp only
      rw [show tallySum db.cleanedTallies date a = derivedCount db date a from hconsA,
        show tallySum db.cleanedTallies date b = derivedCount db date b from hconsB]
      exact hder
    · dsimp only
      rw [filter_src_tallySum _ a date b hab,
        mergeFold_tallySum _ db.cleanedTallies a b date hab,
        srcRows_sum db.cleanedTallies a date]
      ring
  · unfold update_cleaned_tallies
    dsimp only
    exact songById_filter_self db.songs a



/-- Witness for C2: merging song 1 into song 2 and recomputing date 0
yields count 3 + 4 for the target, and song 1 is gone. -/
theorem c2_witness :
    TalliesWF c2db.cleanedTallies ∧
    cleanedCount c2db 0 1 = derivedCount c2db 0 1 ∧
    (cleanedCount (update_cleaned_tallies (merge_songs c2db 1 2).1 0) 0 2
        = cleanedCount c2db 0 1 + cleanedCount c2db 0 2
      ∧ songById (update_cleaned_tallies (merge_songs c2db 1 2).1 0).songs 1 = none) :=
  ⟨by decide, by decide,
    c2_merge_then_recompute c2db 1 2 0
      ⟨1, "Aa", "Bb", "Aa - Bb", "verified"⟩ ⟨2, "Cc", "Dd", "Cc - Dd", "verified"⟩
      (by decide) (by decide) rfl (by decide) rfl (by decide) (by decide) (by decide)⟩

/-- Counterexample for C2 as frozen (every pair of distinct canonical
songs): merging the PENDING song 1 into the verified song 2 re-points
song 1's grouping key (3 raw votes) at song 2, so the recompute derives
3 + 4 = 7 for the target, while the pre-merge sum of the two
CleanedSongTally counts is 0 + 4 = 4 (a pending song has no tally row -
the recompute only writes rows for verified songs).  The pre-merge state
is well-formed, fully consistent and even a fixed point of the recompute,
and the source song is gone afterwards; only the claimed pre-merge-sum
equality fails. -/
theorem c2_counterexample :
    songById c2cdb.songs 1 = some ⟨1, "Aa", "Bb", "Aa - Bb", "pending"⟩
    ∧ songById c2cdb.songs 2 = some ⟨2, "Cc", "Dd", "Cc - Dd", "verified"⟩
    ∧ TalliesWF c2cdb.cleanedTallies
    ∧ cleanedCount c2cdb 0 1 = derivedCount c2cdb 0 1
    ∧ cleanedCount c2cdb 0 2 = derivedCount c2cdb 0 2
    ∧ update_cleaned_tallies c2cdb 0 = c2cdb
    ∧ (merge_songs c2cdb 1 2).2 = true
    ∧ songById (update_cleaned_tallies (merge_songs c2cdb 1 2).1 0).songs 1 = none
    ∧ cleanedCount (update_cleaned_tallies (merge_songs c2cdb 1 2).1 0) 0 2 = 7
    ∧ cleanedCount c2cdb 0 1 + cleanedCount c2cdb 0 2 = 4
    ∧ cleanedCount (update_cleaned_tallies (merge_songs c2cdb 1 2).1 0) 0 2
        ≠ cleanedCount c2cdb 0 1 + cleanedCount c2cdb 0 2 := by
  refine ⟨by decide, by decide, by decide, by decide, by decide, by decide,
    by decide, by decide, by decide, by decide, by decide⟩

/-! ### Trace-shape lemmas for _process_single_tally (claim C5) -/

theorem create_mapping_events (db : CleanDB) (tally : RawSongTally) (song : CleanedSong)
    (ia : Bool) :
    (create_mapping db tally song ia).2 = [CleanEvent.wroteMapping tally.match_key] := by
  unfold create_mapping
  split_ifs <;> rfl

theorem create_pending_song_events (db : CleanDB) (tally : RawSongTally)
    (artistOpt titleOpt : Option String) :
    (create_pending_song db tally artistOpt titleOpt).2.1 = []
    ∨ (create_pending_song db tally artistOpt titleOpt).2.1
        = [CleanEvent.createdSong db.nextSongId] := by
  unfold create_pending_song
  dsimp only
  split
  · exact Or.inl rfl
  · exact Or.inr rfl

theorem pendingFlow_events (db : CleanDB) (tally : RawSongTally)
    (artistOpt titleOpt : Option String) (conf reas act : String) :
    (pendingFlow db tally artistOpt titleOpt conf reas act).2.1
      = (create_pending_song db tally artistOpt titleOpt).2.1
        ++ [CleanEvent.wroteMapping tally.match_key, CleanEvent.loggedDecision "new"] := by
  unfold pendingFlow
  rcases hcp : create_pending_song db tally artistOpt titleOpt with ⟨db1, e1, song⟩
  rcases hcm : create_mapping db1 tally song false with ⟨db2, e2⟩
  have he2 : e2 = [CleanEvent.wroteMapping tally.match_key] := by
    have h := create_mapping_events db1 tally song false
    rw [hcm] at h
    exact h
  dsimp only
  rw [hcm]
  dsimp only [log_decision]
  rw [he2]
  simp

theorem pendingFlow_shape (db : CleanDB) (tally : RawSongTally)
    (artistOpt titleOpt : Option String) (conf reas act : String) :
    traceIsMutationsThenLog (pendingFlow db tally artistOpt titleOpt conf reas act).2.1 := by
  rw [pendingFlow_events]
  rcases create_pending_song_events db tally artistOpt titleOpt with h | h <;> rw [h]
  · exact ⟨[CleanEvent.wroteMapping tally.match_key], "new", by simp,
      by intro e he; simp at he; subst he; rfl⟩
  · refine ⟨[CleanEvent.createdSong db.nextSongId, CleanEvent.wroteMapping tally.match_key],
      "new", by simp, ?_⟩
    intro e he
    rcases List.mem_cons.1 he with rfl | he2
    · rfl
    · simp at he2
      subst he2
      rfl

/-! ### Claim theorems C5 -/







/-- Counterexample for C5: on a valid vote with a nonempty verified list
(so the semantic-matching call happens), the DecisionLog write does NOT
precede the mutations - the pending CleanedSong and the MatchKeyMapping
are written first and the log write comes last. -/
theorem c5_counterexample :
    (is_valid_vote_format c5tally.display_name).1 = true
    ∧ c5songs ≠ []
    ∧ (process_single_tally c5db c5tally c5songs (.success (.invalid "no json"))).2.1
        = [CleanEvent.createdSong 0, CleanEvent.wroteMapping "aa::bb",
           CleanEvent.loggedDecision "new"]
    ∧ ¬ logsPrecedeMutations
        (process_single_tally c5db c5tally c5songs (.success (.invalid "no json"))).2.1 := by
  exact ⟨by decide, by decide, by decide, by decide⟩

/-- C5 (amended): in every execution of _process_single_tally in which the
semantic-matching call is made (valid format, nonempty verified list), the
call's result is written to the DecisionLog exactly once, but the write
happens AFTER the MatchKeyMapping / CleanedSong mutations of that step, as
the last write, not before them. -/
theorem c5_log_after_mutations (db : CleanDB) (tally : RawSongTally)
    (verified_songs : List VerifiedSongInfo) (call : LLMCall)
    (hvalid : (is_valid_vote_format tally.display_name).1 = true)
    (hvs : verified_songs ≠ []) :
    traceIsMutationsThenLog
      (process_single_tally db tally verified_songs call).2.1 := by
  unfold process_single_tally
  obtain ⟨ar, ti, hvf⟩ : ∃ ar ti,
      is_valid_vote_format tally.display_name = (true, ar, ti) :=
    ⟨(is_valid_vote_format tally.display_name).2.1,
     (is_valid_vote_format tally.display_name).2.2, by rw [← hvalid]⟩
  rw [hvf]
  dsimp only
  have hvsb : verified_songs.isEmpty = false := by
    simpa [List.isEmpty_iff] using hvs
  simp only [hvsb, Bool.false_eq_true, if_false]
  by_cases hm : ((match_vote_with_llm ar ti verified_songs call).matched
      && idTruthy (match_vote_with_llm ar ti verified_songs call).matched_song_id) = true
  · rw [if_pos hm]
    cases hms : llmMatchedSong db
        (match_vote_with_llm ar ti verified_songs call).matched_song_id with
    | some ms =>
      dsimp only
      refine ⟨[CleanEvent.wroteMapping tally.match_key], "auto_merge", ?_, ?_⟩
      · rw [create_mapping_events db tally ms true]
        rfl
      · intro e he
        simp at he
        subst he
        rfl
    | none => exact pendingFlow_shape db tally (some ar) (some ti) _ _ _
  · rw [if_neg hm]
    exact pendingFlow_shape db tally (some ar) (some ti) _ _ _

/-- Witness for C5's amended theorem at the concrete C5 inputs. -/
theorem c5_witness :
    (is_valid_vote_format c5tally.display_name).1 = true
    ∧ c5songs ≠ []
    ∧ traceIsMutationsThenLog
        (process_single_tally c5db c5tally c5songs (.success (.invalid "no json"))).2.1 :=
  ⟨by decide, by decide,
    c5_log_after_mutations c5db c5tally c5songs (.success (.invalid "no json"))
      (by decide) (by decide)⟩

/-! ### Claim theorem C3 -/

/-- C3: the per-date tally recompute is idempotent - with the raw tallies,
mappings and song statuses unchanged, running _update_cleaned_tallies a
second time leaves the CleanedSongTally table (and the whole state)
exactly as after the first run. -/
theorem c3_recompute_idempotent (db : CleanDB) (date : Nat) :
    update_cleaned_tallies (update_cleaned_tallies db date) date
      = update_cleaned_tallies db date := by
  have hfix : ∀ p ∈ songCounts db date,
      FirstRowIs ((songCounts db date).foldl
        (fun ct q => upsertTallySet ct date q.1 q.2) db.cleanedTallies) date p.1 p.2 :=
    foldUpsert_sets (songCounts db date) db.cleanedTallies date
      (songCounts_keys_nodup db date)
  show ({ db with cleanedTallies := _ } : CleanDB) = { db with cleanedTallies := _ }
  congr 1
  exact foldUpsert_fixed (songCounts db date) _ date hfix

theorem commonPrefixRun_self : ∀ l : List Char, commonPrefixRun l l = l.length
  | [] => rfl
  | c :: rest => by
    rw [commonPrefixRun, if_pos rfl, commonPrefixRun_self rest, List.length_cons]

theorem matchSizeAt_le (a b : List Char) (ahi bhi i j : Nat) :
    matchSizeAt a b ahi bhi i j ≤ ahi :=
  le_trans (min_le_right _ _) (le_trans (min_le_left _ _) (Nat.sub_le _ _))

theorem foldl_no_update (a b : List Char) (ahi bhi : Nat) (best : Nat × Nat × Nat)
    (ps : List (Nat × Nat))
    (h : ∀ ij ∈ ps, matchSizeAt a b ahi bhi ij.1 ij.2 ≤ best.2.2) :
    ps.foldl (fun best ij =>
      let k := matchSizeAt a b ahi bhi ij.1 ij.2
      if best.2.2 < k then (ij.1, ij.2, k) else best) best = best := by
  induction ps with
  | nil => rfl
  | cons p rest ih =>
    rw [List.foldl_cons]
    have hp := h p (by simp)
    simp only [if_neg (not_lt.2 hp)]
    exact ih (fun ij hij => h ij (by simp [hij]))

/-- On identical slices the longest matching block is the whole slice. -/
theorem findLongestMatch_self (l : List Char) (n : Nat) (h : l.length = n) (hn : 0 < n) :
    findLongestMatch l l 0 n 0 n = (0, 0, n) := by
  obtain ⟨m, rfl⟩ : ∃ m, n = m + 1 := ⟨n - 1, by omega⟩
  unfold findLongestMatch
  rw [Nat.sub_zero, List.range'_succ, List.flatMap_cons, List.map_cons,
    List.cons_append, List.foldl_cons]
  have hk : matchSizeAt l l (m + 1) (m + 1) 0 0 = m + 1 := by
    unfold matchSizeAt
    rw [List.drop_zero, commonPrefixRun_self, h, Nat.sub_zero, min_self, min_self]
  simp only [hk, if_pos (Nat.succ_pos m)]
  exact foldl_no_update l l (m + 1) (m + 1) (0, 0, m + 1) _
    (fun ij _ => matchSizeAt_le l l (m + 1) (m + 1) ij.1 ij.2)

theorem matchingTotalF_degenerate (a b : List Char) (f alo ahi blo bhi : Nat)
    (h : ¬ alo < ahi) : matchingTotalF a b f alo ahi blo bhi = 0 := by
  cases f with
  | zero => rfl
  | succ f => rw [matchingTotalF, if_neg (fun hc => h hc.1)]

/-- On identical sequences the matching blocks cover everything. -/
theorem matchingTotalF_self (l : List Char) (n f : Nat) (h : l.length = n) (hf : 0 < f) :
    matchingTotalF l l f 0 n 0 n = n := by
  rcases Nat.eq_zero_or_pos n with hn | hn
  · subst hn
    exact matchingTotalF_degenerate l l f 0 0 0 0 (by omega)
  · obtain ⟨f, rfl⟩ : ∃ g, f = g + 1 := ⟨f - 1, by omega⟩
    rw [matchingTotalF, if_pos ⟨hn, hn⟩]
    simp only [findLongestMatch_self l n h hn]
    rw [if_pos hn]
    rw [matchingTotalF_degenerate l l f 0 0 0 0 (by omega),
      matchingTotalF_degenerate l l f (0 + n) n (0 + n) n (by omega)]
    omega

theorem sequenceMatcherRatio_self (l : List Char) : sequenceMatcherRatio l l = 1 := by
  unfold sequenceMatcherRatio
  rcases Nat.eq_zero_or_pos l.length with h | h
  · rw [if_pos (by omega)]
  · rw [if_neg (by omega)]
    rw [matchingTotalF_self l l.length _ rfl (by omega)]
    have h0 : ((l.length : ℚ) + (l.length : ℚ)) ≠ 0 :=
      ne_of_gt (by exact_mod_cast (show 0 < l.length + l.length by omega))
    rw [div_eq_one_iff_eq h0]
    ring

/-! ### Claim theorems -/

/-- C8: matching.similarity_ratio applied to a string and itself equals 1.0
for every string, including the empty string. -/
theorem c8_similarity_ratio_self (x : String) : similarity_ratio x x = 1 :=
  sequenceMatcherRatio_self _

unseal Rat.add Rat.mul Rat.sub Rat.inv in
/-- C10: token_overlap_ratio returns 0.0 whenever either argument has no
word tokens, and in particular it is 0.0 on a pair of empty strings even
though they are identical, so combined_similarity of two empty strings is
0.7 rather than 1.0. -/
theorem c10_token_overlap_no_tokens :
    (∀ a b : String, tokenize a = [] ∨ tokenize b = [] → token_overlap_ratio a b = 0) ∧
    token_overlap_ratio "" "" = 0 ∧ combined_similarity "" "" = 7 / 10 := by
  refine ⟨?_, by decide, by decide⟩
  intro a b h
  unfold token_overlap_ratio
  rcases h with h | h <;> simp [h]

/-- Witness for C10 at a concrete punctuation-only input. -/
theorem c10_witness :
    (tokenize "?!" = [] ∨ tokenize "abc" = []) ∧ token_overlap_ratio "?!" "abc" = 0 :=
  ⟨Or.inl (by decide), c10_token_overlap_no_tokens.1 "?!" "abc" (Or.inl (by decide))⟩

/-- C1: the local fuzzy tier returns an auto-link match only when the best
combined score reaches the threshold and exceeds the runner-up score by the
confidence-gap margin of 0.10; whenever the gap is below the margin no
match is returned, even if the best score clears the threshold. -/
theorem c1_fuzzy_gap_guard (songs : List CleanedSong) (a s : String) (threshold : ℚ) :
    (∀ m, match_against_known_songs songs a s threshold = some m →
      threshold ≤ bestFuzzyScore songs a s ∧
      CONFIDENCE_GAP ≤ bestFuzzyScore songs a s - secondFuzzyScore songs a s) ∧
    (bestFuzzyScore songs a s - secondFuzzyScore songs a s < CONFIDENCE_GAP →
      match_against_known_songs songs a s threshold = none) := by
  constructor
  · intro m hm
    unfold match_against_known_songs at hm
    by_cases he : (scoredSongs songs a s).isEmpty
    · rw [if_pos he] at hm
      cases hm
    · rw [if_neg he] at hm
      by_cases hg : threshold ≤ bestFuzzyScore songs a s ∧
          CONFIDENCE_GAP ≤ bestFuzzyScore songs a s - secondFuzzyScore songs a s
      · exact hg
      · rw [if_neg hg] at hm
        cases hm
  · intro hl
    unfold match_against_known_songs
    by_cases he : (scoredSongs songs a s).isEmpty
    · rw [if_pos he]
    · rw [if_neg he, if_neg (fun hg => absurd hg.2 (not_le.2 hl))]





/-- C9: for every vote input and verified-song list, a malformed semantic
response (non-JSON text), a non-dict JSON response, or an exception during
the call makes match_vote_with_llm return a no-match result with matched =
false, no song id and confidence "none", instead of propagating an
exception (the embedding is a total function whose outcome parameter covers
the exception case). -/
theorem c9_llm_degrades_to_no_match (artist title : String)
    (verified_songs : List VerifiedSongInfo) (msg : String) :
    ((match_vote_with_llm artist title verified_songs (.success (.invalid msg))).matched = false ∧
     (match_vote_with_llm artist title verified_songs (.success (.invalid msg))).confidence = "none" ∧
     (match_vote_with_llm artist title verified_songs (.success (.invalid msg))).matched_song_id = none) ∧
    ((match_vote_with_llm artist title verified_songs (.success .nonDict)).matched = false ∧
     (match_vote_with_llm artist title verified_songs (.success .nonDict)).confidence = "none" ∧
     (match_vote_with_llm artist title verified_songs (.success .nonDict)).matched_song_id = none) ∧
    ((match_vote_with_llm artist title verified_songs (.failure msg)).matched = false ∧
     (match_vote_with_llm artist title verified_songs (.failure msg)).confidence = "none" ∧
     (match_vote_with_llm artist title verified_songs (.failure msg)).matched_song_id = none) := by
  unfold match_vote_with_llm
  by_cases he : verified_songs.isEmpty <;> simp [he]

unseal Rat.add Rat.mul Rat.sub Rat.inv in
/-- Witness for C1: with two equally scoring verified candidates the gap is
zero, below the margin, and no match is returned although the best score
is 1. -/
theorem c1_witness :
    bestFuzzyScore [c1songA, c1songB] "aa" "bb"
        - secondFuzzyScore [c1songA, c1songB] "aa" "bb" < CONFIDENCE_GAP ∧
    match_against_known_songs [c1songA, c1songB] "aa" "bb" AUTO_MERGE_THRESHOLD = none :=
  ⟨by decide,
   (c1_fuzzy_gap_guard [c1songA, c1songB] "aa" "bb" AUTO_MERGE_THRESHOLD).2 (by decide)⟩

/-- C4: the grouping key is NOT invariant under letter case.  The artist
inputs "xFEAT.. z" and "xfeat.. z" differ only in case (their lowercasings
agree) and the song inputs are identical, yet the normalization pipeline
produces different grouping keys: the feat-dot cleanup pass of
normalize_common_words (re.sub of feat\.\.+ at text_cleaning.py line 131)
is the one pass without re.IGNORECASE, so it rewrites "xfeat.." but leaves
"xFEAT.." alone, and no later stage reconciles the two spellings. -/
theorem c4_case_sensitivity_bug :
    lowerStr "xFEAT.. z" = lowerStr "xfeat.. z"
    ∧ (normalize_vote_input [] [] "xFEAT.. z" "Songy").2.2.1 = "xfeat.. z::songy"
    ∧ (normalize_vote_input [] [] "xfeat.. z" "Songy").2.2.1 = "xfeat. z::songy"
    ∧ (normalize_vote_input [] [] "xFEAT.. z" "Songy").2.2.1
        ≠ (normalize_vote_input [] [] "xfeat.. z" "Songy").2.2.1 :=
  ⟨rfl, by decide, by decide, by decide⟩

/-- C6: a user who already holds MAX_VOTES_PER_DAY (5) RawVotes for today
gets the ceiling rejection from handle_incoming_text, and the state is
unchanged: no RawVote is created and no RawSongTally is touched. -/
theorem c6_daily_ceiling (st : VoteState) (channel user_ref : String) (t : Nat)
    (text : String)
    (h1 : pyStripStr text ≠ "")
    (h2 : ¬(lowerStr (pyStripStr text) = "/start" ∨ lowerStr (pyStripStr text) = "start"))
    (h3 : ¬(lowerStr (pyStripStr text) = "/help" ∨ lowerStr (pyStripStr text) = "help"))
    (h4 : st.users.contains (channel, user_ref) = true)
    (h5 : MAX_VOTES_PER_DAY ≤ (st.rawVotes.filter (fun v =>
        v.channel == channel && v.user_ref == user_ref
        && v.vote_date == t / 86400)).length) :
    handle_incoming_text st channel user_ref t text
      = (st, "🚫 You have used all " ++ toString MAX_VOTES_PER_DAY
          ++ " votes for today.\n\nCome back tomorrow to vote again!") := by
  unfold handle_incoming_text
  rw [if_neg h1, if_neg h2, if_neg h3]
  dsimp only
  simp only [h4, if_true]
  rw [if_pos h5]

/-- Witness for C6 at the concrete ceiling state: five day-0 votes, a
sixth valid vote at t = 100 of day 0. -/
theorem c6_witness :
    MAX_VOTES_PER_DAY ≤ (c6st.rawVotes.filter (fun v =>
        v.channel == "sms" && v.user_ref == "u1" && v.vote_date == 100 / 86400)).length
    ∧ handle_incoming_text c6st "sms" "u1" 100 "Aa - Bb"
      = (c6st, "🚫 You have used all " ++ toString MAX_VOTES_PER_DAY
          ++ " votes for today.\n\nCome back tomorrow to vote again!") :=
  ⟨by decide,
   c6_daily_ceiling c6st "sms" "u1" 100 "Aa - Bb" (by decide) (by decide) (by decide)
     (by decide) (by decide)⟩

/-- Counterexample for C7: after three day-0 submissions of "Aa - Bb"
(one recorded, two rejected as already voted, each incrementing the spam
counter to 3 with expiry 86452) and a day-1 vote "Aa-Bb" that resolves to
the same grouping key aa::bb, the day-1 resubmission of "Aa - Bb" at
t = 86410 is a valid second vote of day 1 resolving to the already-voted
key aa::bb - but the spam guard runs before the duplicate check, so the
reply is the spam message, not the already-voted response the claim
requires. -/
theorem c7_counterexample :
    c7s4.1.rawVotes.find? (fun v => v.channel == "sms" && v.user_ref == "u1"
      && v.match_key == "aa::bb" && v.vote_date == 1) ≠ none
    ∧ parse_vote_input (pyStripStr "Aa - Bb") = some (some "Aa", "Bb")
    ∧ (resolve_vote c7s4.1.songs c7s4.1.verifiedArtists c7s4.1.rawTallies 1
        (some "Aa", "Bb")).2.2.2.2.1 = "aa::bb"
    ∧ (validate_vote_content "Aa - Bb").1 = true
    ∧ c7s5.2 = "⚠️ You've sent this message too many times.\n\nPlease wait a moment before trying again."
    ∧ c7s5.2 ≠ "⚠️ You already voted for '"
        ++ (resolve_vote c7s4.1.songs c7s4.1.verifiedArtists c7s4.1.rawTallies 1
          (some "Aa", "Bb")).2.2.2.2.2 ++ "' today!" := by
  refine ⟨by decide, by decide, by decide, by decide, by decide, by decide⟩

/-- C7 (amended): when the spam counter of the message is still below
SPAM_MAX_IDENTICAL, a valid vote resolving to a grouping key the user
already voted today is rejected with the already-voted response, and no
RawVote is created and no RawSongTally is touched (only the spam counter
of the message advances). -/
theorem c7_duplicate_same_day (st : VoteState) (channel user_ref : String) (t : Nat)
    (text : String) (parsed : Option String × String) (v : RawVoteRec)
    (h1 : pyStripStr text ≠ "")
    (h2 : ¬(lowerStr (pyStripStr text) = "/start" ∨ lowerStr (pyStripStr text) = "start"))
    (h3 : ¬(lowerStr (pyStripStr text) = "/help" ∨ lowerStr (pyStripStr text) = "help"))
    (h4 : st.users.contains (channel, user_ref) = true)
    (h5 : (st.rawVotes.filter (fun v2 => v2.channel == channel && v2.user_ref == user_ref
        && v2.vote_date == t / 86400)).length < MAX_VOTES_PER_DAY)
    (h6 : (validate_vote_content (pyStripStr text)).1 = true)
    (h7 : spamGet st.spamCache user_ref (normalize_text (pyStripStr text)) t
        < SPAM_MAX_IDENTICAL)
    (h8 : parse_vote_input (pyStripStr text) = some parsed)
    (h9 : st.rawVotes.find? (fun v2 => v2.channel == channel && v2.user_ref == user_ref
        && v2.match_key == (resolve_vote st.songs st.verifiedArtists st.rawTallies
            (t / 86400) parsed).2.2.2.2.1
        && v2.vote_date == t / 86400) = some v) :
    (handle_incoming_text st channel user_ref t text).2
      = "⚠️ You already voted for '"
        ++ (resolve_vote st.songs st.verifiedArtists st.rawTallies
            (t / 86400) parsed).2.2.2.2.2 ++ "' today!"
    ∧ (handle_incoming_text st channel user_ref t text).1.rawVotes = st.rawVotes
    ∧ (handle_incoming_text st channel user_ref t text).1.rawTallies = st.rawTallies := by
  unfold handle_incoming_text
  rw [if_neg h1, if_neg h2, if_neg h3]
  dsimp only
  simp only [h4, if_true]
  rw [if_neg (Nat.not_le.mpr h5)]
  obtain ⟨em, hvv⟩ : ∃ em, validate_vote_content (pyStripStr text) = (true, em) :=
    ⟨(validate_vote_content (pyStripStr text)).2, by rw [← h6]⟩
  rw [hvv]
  dsimp only
  rw [if_neg (Nat.not_le.mpr h7)]
  rw [h8]
  dsimp only
  rw [h9]
  exact ⟨rfl, rfl, rfl⟩

/-- Witness for C7's amended theorem: with a quiet spam counter, the
second same-key vote of the day gets the already-voted response and
writes no RawVote or tally row. -/
theorem c7_witness :
    parse_vote_input (pyStripStr "Aa - Bb") = some (some "Aa", "Bb")
    ∧ spamGet c7wst.spamCache "u1" (normalize_text (pyStripStr "Aa - Bb")) 50
        < SPAM_MAX_IDENTICAL
    ∧ ((handle_incoming_text c7wst "sms" "u1" 50 "Aa - Bb").2
        = "⚠️ You already voted for '"
          ++ (resolve_vote c7wst.songs c7wst.verifiedArtists c7wst.rawTallies
              (50 / 86400) (some "Aa", "Bb")).2.2.2.2.2 ++ "' today!"
      ∧ (handle_incoming_text c7wst "sms" "u1" 50 "Aa - Bb").1.rawVotes = c7wst.rawVotes
      ∧ (handle_incoming_text c7wst "sms" "u1" 50 "Aa - Bb").1.rawTallies
          = c7wst.rawTallies) :=
  ⟨by decide, by decide,
   c7_duplicate_same_day c7wst "sms" "u1" 50 "Aa - Bb" (some "Aa", "Bb")
     ⟨"sms", "u1", "Aa - Bb", "Aa", "Bb", "aa", "bb", "aa::bb", "Aa - Bb", 0⟩
     (by decide) (by decide) (by decide) (by decide) (by decide) (by decide)
     (by decide) (by decide) (by decide)⟩

end RZ
